import Mathlib

/-!
# llmscript: script executor and JSON location

A shallow embedding of `internal/script/executor.go` (`Executor.ExecuteTest`,
`Executor.runCommand`, `Executor.buildEnv`) and of the JSON-location step of
`ClaudeProvider.GenerateTests` in `internal/llm/claude.go`.

Go strings are modelled as lists of their bytes (`Str`), Go `error` values by
their message text (`Option Str`, `none` being `nil`).  Everything the executor
asks of its surroundings (validator, directory provisioner, file system, child
processes, the context) is a field of `Host`; the executor threads an explicit
host state and records every effect it issues, with its outcome, in a trace.
-/

namespace LLMScript

/-- A Go string: the sequence of its bytes, one `Char` standing for each (the
literals of the program are ASCII). -/
abbrev Str := List Char

/-- A Go string literal. -/
def lit (s : String) : Str := s.toList

/-! ## Data model -/

/-- Modelled from the spec: the declaration of `ShellConfig` is in another file
of package `script`; the executor reads its shell path and its ordered
invocation flags. -/
structure ShellConfig where
  Path : Str
  Args : List Str
deriving DecidableEq

/-- Modelled from the spec: the declaration of `llm.Test` is in another file of
package `llm`; the executor reads its input, its ordered setup commands and its
environment, a Go `map[string]string` given here by its key/value pairs. -/
structure Test where
  Input : Str
  Setup : List Str
  Environment : List (Str × Str)
deriving DecidableEq

/-- The `Executor` struct. -/
structure Executor where
  workDir : Str
  shell : ShellConfig
deriving DecidableEq

/-- What `exec.CommandContext` plus the `Dir` and `Env` assignments fix of a
child process. -/
structure Cmd where
  Path : Str
  Args : List Str
  Dir : Str
  Env : List Str
deriving DecidableEq

/-- A Go `(string, error)` result. -/
inductive Res where
  | ok (val : Str)
  | error (msg : Str)
deriving DecidableEq

/-- The result of `cmd.Start`: the started process or an error. -/
inductive Started where
  | ok (pid : Nat)
  | error (msg : Str)
deriving DecidableEq

/-- Which case of the `select` in `ExecuteTest` fires: `done` delivers the
result of `cmd.Wait` together with what the two builders hold at that point;
`ctxDone` is the context's channel. -/
inductive Outcome where
  | done (err : Option Str) (stdout stderr : Str)
  | ctxDone
deriving DecidableEq

/-! ## Effects and the host -/

/-- The effects `ExecuteTest` issues, each with the outcome it observed. -/
inductive Event where
  | prepare (workDir : Str) (res : Res)
  | writeFile (name data : Str) (perm : Nat) (err : Option Str)
  | combinedOutput (c : Cmd) (output : Str) (err : Option Str)
  | stdinPipe (c : Cmd) (err : Option Str)
  | start (c : Cmd) (res : Started)
  | stdinWrite (data : Str) (err : Option Str)
  | stdinClose (err : Option Str)
  | waitDone (err : Option Str) (stdout stderr : Str)
  | ctxDone
  | kill (pid : Nat)
  | removeAll (path : Str)
deriving DecidableEq

/-- The surroundings of the executor, over a host state `σ` and a context type
`κ`.  `ValidateScript` and `PrepareScriptEnvironment` belong to the same Go
package but to other files; the rest is the Go standard library.  `rangeOrder`
is the order in which a `range` loop visits the pairs of a map: some
permutation of them. -/
structure Host (σ κ : Type) where
  ValidateScript : Str → Option Str
  PrepareScriptEnvironment : σ → Str → σ × Res
  Join : Str → Str → Str
  WriteFile : σ → Str → Str → Nat → σ × Option Str
  Environ : σ → List Str
  rangeOrder : σ → (m : List (Str × Str)) → { iter : List (Str × Str) // iter.Perm m }
  CombinedOutput : σ → κ → Cmd → σ × Str × Option Str
  StdinPipe : σ → Cmd → σ × Option Str
  Start : σ → κ → Cmd → σ × Started
  StdinWrite : σ → Str → σ × Option Str
  StdinClose : σ → σ × Option Str
  Select : σ → κ → σ × Outcome
  Kill : σ → Nat → σ
  RemoveAll : σ → Str → σ
  dirExists : σ → Str → Bool

/-- One run of a function returning `(string, error)`: final host state, the
effects issued in order, and the two results. -/
structure Run (σ : Type) where
  state : σ
  trace : List Event
  output : Str
  err : Option Str

variable {σ κ : Type}

/-! ## executor.go -/

/-- The method `Executor.buildEnv`: `environ` is what `os.Environ()` returned,
`iter` the pairs of the map in the order the `range` loop visits them; each
step appends `fmt.Sprintf("%s=%s", k, v)`. -/
def buildEnv (environ : List Str) (iter : List (Str × Str)) : List Str :=
  iter.foldl (fun result kv => result ++ [kv.1 ++ '=' :: kv.2]) environ

/-- The method `Executor.runCommand`: the event it issues and the error it
returns. -/
def runCommand (h : Host σ κ) (e : Executor) (s : σ) (ctx : κ) (dir cmd : Str)
    (env : List (Str × Str)) : σ × Event × Option Str :=
  let args := e.shell.Args ++ [cmd]
  let command : Cmd :=
    ⟨e.shell.Path, args, dir, buildEnv (h.Environ s) (h.rangeOrder s env).1⟩
  match h.CombinedOutput s ctx command with
  | (s1, output, some err) =>
    (s1, Event.combinedOutput command output (some err),
      some (lit "command failed: " ++ err ++ lit "\noutput: " ++ output))
  | (s1, output, none) => (s1, Event.combinedOutput command output none, none)

/-- The loop over `test.Setup` in `ExecuteTest` (lines 58-62). -/
def runSetup (h : Host σ κ) (e : Executor) (ctx : κ) (testDir : Str)
    (env : List (Str × Str)) : σ → List Str → σ × List Event × Option Str
  | s, [] => (s, [], none)
  | s, cmd :: rest =>
    match runCommand h e s ctx testDir cmd env with
    | (s1, ev, some err) => (s1, [ev], some (lit "setup command failed: " ++ err))
    | (s1, ev, none) =>
      match runSetup h e ctx testDir env s1 rest with
      | (s2, evs, r) => (s2, ev :: evs, r)

/-- The timeout case of the `select`: `cmd.Process.Kill()` when `cmd.Process`
is set. -/
def killProcess (h : Host σ κ) (s : σ) : Option Nat → σ × List Event
  | some pid => (h.Kill s pid, [Event.kill pid])
  | none => (s, [])

/-- Lines 81-112 of `ExecuteTest`: start, feed the input, close, wait. -/
def startAndWait (h : Host σ κ) (s : σ) (ctx : κ) (cmd : Cmd) (test : Test) : Run σ :=
  match h.Start s ctx cmd with
  | (s1, Started.error err) =>
    ⟨s1, [Event.start cmd (Started.error err)], [],
      some (lit "failed to start command: " ++ err)⟩
  | (s1, Started.ok pid) =>
    match h.StdinWrite s1 test.Input with
    | (s2, some err) =>
      ⟨s2, [Event.start cmd (Started.ok pid), Event.stdinWrite test.Input (some err)], [],
        some (lit "failed to write input: " ++ err)⟩
    | (s2, none) =>
      match h.StdinClose s2 with
      | (s3, some err) =>
        ⟨s3, [Event.start cmd (Started.ok pid), Event.stdinWrite test.Input none,
              Event.stdinClose (some err)], [],
          some (lit "failed to close stdin: " ++ err)⟩
      | (s3, none) =>
        match h.Select s3 ctx with
        | (s4, Outcome.done (some err) stdout stderr) =>
          ⟨s4, [Event.start cmd (Started.ok pid), Event.stdinWrite test.Input none,
                Event.stdinClose none, Event.waitDone (some err) stdout stderr], [],
            some (lit "command failed: " ++ err ++ lit "\nstdout: " ++ stdout
              ++ lit "\nstderr: " ++ stderr)⟩
        | (s4, Outcome.done none stdout stderr) =>
          ⟨s4, [Event.start cmd (Started.ok pid), Event.stdinWrite test.Input none,
                Event.stdinClose none, Event.waitDone none stdout stderr], stdout, none⟩
        | (s4, Outcome.ctxDone) =>
          let k := killProcess h s4 (some pid)
          ⟨k.1, [Event.start cmd (Started.ok pid), Event.stdinWrite test.Input none,
                 Event.stdinClose none, Event.ctxDone] ++ k.2, [],
            some (lit "command timed out")⟩

/-- Lines 64-112 of `ExecuteTest`: build the command, open the pipe, run
`startAndWait`, then the deferred `stdin.Close()` (its result is dropped). -/
def runScript (h : Host σ κ) (e : Executor) (s : σ) (ctx : κ) (testDir scriptPath : Str)
    (test : Test) : Run σ :=
  let args := e.shell.Args ++ [scriptPath]
  let cmd : Cmd :=
    ⟨e.shell.Path, args, testDir,
      buildEnv (h.Environ s) (h.rangeOrder s test.Environment).1⟩
  match h.StdinPipe s cmd with
  | (s1, some err) =>
    ⟨s1, [Event.stdinPipe cmd (some err)], [],
      some (lit "failed to create stdin pipe: " ++ err)⟩
  | (s1, none) =>
    let r := startAndWait h s1 ctx cmd test
    let c := h.StdinClose r.state
    ⟨c.1, Event.stdinPipe cmd none :: r.trace ++ [Event.stdinClose c.2], r.output, r.err⟩

/-- The permission argument of `os.WriteFile` in `ExecuteTest`: `0750`. -/
def scriptFileMode : Nat := 0o750

/-- Lines 51-112 of `ExecuteTest`: what runs between the registration of the
deferred `os.RemoveAll(testDir)` and the return. -/
def inTestDir (h : Host σ κ) (e : Executor) (s : σ) (ctx : κ) (script : Str) (test : Test)
    (testDir : Str) : Run σ :=
  let scriptPath := h.Join testDir (lit "script.sh")
  match h.WriteFile s scriptPath script scriptFileMode with
  | (s1, some err) =>
    ⟨s1, [Event.writeFile scriptPath script scriptFileMode (some err)], [],
      some (lit "failed to write script: " ++ err)⟩
  | (s1, none) =>
    match runSetup h e ctx testDir test.Environment s1 test.Setup with
    | (s2, evs, some err) =>
      ⟨s2, Event.writeFile scriptPath script scriptFileMode none :: evs, [], some err⟩
    | (s2, evs, none) =>
      let r := runScript h e s2 ctx testDir scriptPath test
      ⟨r.state, Event.writeFile scriptPath script scriptFileMode none :: (evs ++ r.trace),
        r.output, r.err⟩

/-- The method `Executor.ExecuteTest`: validation, provisioning with the
deferred `os.RemoveAll(testDir)`, then `inTestDir`. -/
def ExecuteTest (h : Host σ κ) (e : Executor) (s : σ) (ctx : κ) (script : Str)
    (test : Test) : Run σ :=
  match h.ValidateScript script with
  | some err => ⟨s, [], [], some (lit "script validation failed: " ++ err)⟩
  | none =>
    match h.PrepareScriptEnvironment s e.workDir with
    | (s1, Res.error err) =>
      ⟨s1, [Event.prepare e.workDir (Res.error err)], [],
        some (lit "failed to prepare test environment: " ++ err)⟩
    | (s1, Res.ok testDir) =>
      let r := inTestDir h e s1 ctx script test testDir
      ⟨h.RemoveAll r.state testDir,
        Event.prepare e.workDir (Res.ok testDir) :: r.trace ++ [Event.removeAll testDir],
        r.output, r.err⟩

/-! ## claude.go: locating the JSON object in a response -/

/-- The name an environment entry defines: the text before its first `=`. -/
def entryName (kv : Str) : Str := kv.takeWhile (fun c => c != '=')

/-- The value an environment entry carries: the text after its first `=`. -/
def entryValue (kv : Str) : Str := (kv.dropWhile (fun c => c != '=')).drop 1

/-- Last-entry-wins lookup of a name in an environment list, the rule a
process launcher applies when a name occurs more than once: the value of the
last entry of that name.  Entries without `=` define nothing, and the empty
string names no variable. -/
def lookupEnv (env : List Str) (name : Str) : Option Str :=
  if name = [] then none
  else
    (env.reverse.find? (fun kv => decide ('=' ∈ kv) && decide (entryName kv = name))).map
      entryValue

/-! ## Permission bits -/

/-- Owner-execute bit (`0100`) of a file mode. -/
def ownerExec (m : Nat) : Bool := m / 0o100 % 2 == 1

/-- Group-execute bit (`0010`) of a file mode. -/
def groupExec (m : Nat) : Bool := m / 0o010 % 2 == 1

/-- Other-execute bit (`0001`) of a file mode. -/
def otherExec (m : Nat) : Bool := m % 2 == 1

/-! ## A concrete host -/

/-- State of the concrete host: the directories that exist, the bytes written
so far to the child's standard input, the setup commands that have run, in
order, and the processes that were sent a kill. -/
structure DemoState where
  dirs : List Str
  stdin : Str
  journal : List Str
  killed : List Nat
deriving DecidableEq

/-- A host with an in-memory directory list.  Scripts mentioning `sudo` are
rejected, an empty work directory cannot be provisioned, the setup command
`false` exits with status 1, every other setup command prints the commands
that ran before it and is then added to the journal, and the child process
behaves as `proc` says, given the bytes it received on standard input. -/
def demoHost (proc : Str → Outcome) : Host DemoState Unit where
  ValidateScript script :=
    if lit "sudo" <:+: script then some (lit "sudo is not allowed") else none
  PrepareScriptEnvironment s workDir :=
    if workDir = [] then (s, Res.error (lit "no work directory"))
    else
      let d := workDir ++ lit "/script-" ++ List.replicate s.dirs.length '0'
      (⟨d :: s.dirs, s.stdin, s.journal, s.killed⟩, Res.ok d)
  Join a b := a ++ '/' :: b
  WriteFile s name _ _ :=
    if name.length > 64 then (s, some (lit "file name too long")) else (s, none)
  Environ _ := [lit "FOO=ambient"]
  rangeOrder _ m := ⟨m, List.Perm.refl m⟩
  CombinedOutput s _ c :=
    if c.Args.getLast? = some (lit "false") then (s, [], some (lit "exit status 1"))
    else
      (⟨s.dirs, s.stdin, s.journal ++ [c.Args.getLast?.getD []], s.killed⟩,
        s.journal.foldl (fun acc t => acc ++ t) [], none)
  StdinPipe s _ := (s, none)
  Start s _ _ := (s, Started.ok 7)
  StdinWrite s data := (⟨s.dirs, s.stdin ++ data, s.journal, s.killed⟩, none)
  StdinClose s := (s, none)
  Select s _ := (s, proc s.stdin)
  Kill s pid := ⟨s.dirs, s.stdin, s.journal, s.killed ++ [pid]⟩
  RemoveAll s path :=
    ⟨s.dirs.filter (fun d => !(path.isPrefixOf d)), s.stdin, s.journal, s.killed⟩
  dirExists s path := decide (path ∈ s.dirs)

/-- A child that copies standard input to standard output and exits 0. -/
def catProc : Str → Outcome := fun inp => Outcome.done none inp []

/-- A child that prints to both streams and exits with status 3. -/
def failProc : Str → Outcome :=
  fun _ => Outcome.done (some (lit "exit status 3")) (lit "partial") (lit "boom")

/-- A child that is still running when the context is done. -/
def hangProc : Str → Outcome := fun _ => Outcome.ctxDone

/-- The executor used in the examples. -/
def demoExecutor : Executor := ⟨lit "/w", ⟨lit "/bin/sh", [lit "-c"]⟩⟩

/-- The initial state of the examples: no directory exists yet. -/
def demoInit : DemoState := ⟨[], [], [], []⟩

/-- The concrete host with a child that does not read its input: the write to
its standard input fails with a broken pipe. -/
def brokenPipeHost (proc : Str → Outcome) : Host DemoState Unit :=
  { demoHost proc with StdinWrite := fun s _ => (s, some (lit "broken pipe")) }

/-- The concrete host with a pipe whose close fails. -/
def closeFailHost (proc : Str → Outcome) : Host DemoState Unit :=
  { demoHost proc with StdinClose := fun s => (s, some (lit "close failed")) }

/-- The concrete host with a removal that fails and leaves every directory in
place (`os.RemoveAll` returns an error, which the deferred call drops). -/
def stuckHost (proc : Str → Outcome) : Host DemoState Unit :=
  { demoHost proc with RemoveAll := fun s _ => s }

/-- A test with two setup commands, an input and one environment pair. -/
def demoTest : Test :=
  ⟨lit "hello\n", [lit "echo A >> log", lit "echo B >> log"],
    [(lit "FOO", lit "override")]⟩

/-- A test whose second setup command fails. -/
def failingSetupTest : Test :=
  ⟨lit "hello\n", [lit "echo A >> log", lit "false", lit "echo B >> log"], []⟩

/-! ## Sequential execution of the setup -/

/-- The command `runCommand` builds for setup command `t` in host state `s`. -/
def setupCmd (h : Host σ κ) (e : Executor) (dir : Str) (env : List (Str × Str)) (s : σ)
    (t : Str) : Cmd :=
  ⟨e.shell.Path, e.shell.Args ++ [t], dir, buildEnv (h.Environ s) (h.rangeOrder s env).1⟩

/-- The command `ExecuteTest` builds for the script at `path` in host state
`s`. -/
def scriptCmd (h : Host σ κ) (e : Executor) (dir path : Str) (test : Test) (s : σ) : Cmd :=
  ⟨e.shell.Path, e.shell.Args ++ [path], dir,
    buildEnv (h.Environ s) (h.rangeOrder s test.Environment).1⟩

/-- Running the commands strictly one after the other from state `s`: each
command runs in the state the one before it left, and is listed with its
outcome and the state it leaves. -/
def setupChain (h : Host σ κ) (e : Executor) (ctx : κ) (dir : Str)
    (env : List (Str × Str)) : σ → List Str → List (Event × σ)
  | _, [] => []
  | s, t :: ts =>
    (Event.combinedOutput (setupCmd h e dir env s t)
        (h.CombinedOutput s ctx (setupCmd h e dir env s t)).2.1
        (h.CombinedOutput s ctx (setupCmd h e dir env s t)).2.2,
      (h.CombinedOutput s ctx (setupCmd h e dir env s t)).1) ::
    setupChain h e ctx dir env (h.CombinedOutput s ctx (setupCmd h e dir env s t)).1 ts

/-- The state the last command of `setupChain` leaves. -/
def setupEnd (h : Host σ κ) (e : Executor) (ctx : κ) (dir : Str)
    (env : List (Str × Str)) : σ → List Str → σ
  | s, [] => s
  | s, t :: ts =>
    setupEnd h e ctx dir env (h.CombinedOutput s ctx (setupCmd h e dir env s t)).1 ts

/-! ## Reading a trace -/

/-- Whether an event is a setup command run by `runCommand`. -/
def Event.isSetup : Event → Bool
  | Event.combinedOutput _ _ _ => true
  | _ => false

/-- The setup commands of a trace, in the order they ran. -/
def setupEvents (t : List Event) : List Event := t.filter Event.isSetup

/-- The error a setup event ended with (`none` for every other event). -/
def Event.setupErr : Event → Option Str
  | Event.combinedOutput _ _ err => err
  | _ => none

/-- The event `runCommand` issues for setup command `t` of a test with
environment `env`, run in directory `dir`: the shell with its flags and `t`,
working directory `dir`, and the environment `buildEnv` makes of the ambient
environment of some host state and of the pairs of `env` in some order. -/
def IsSetupRun (h : Host σ κ) (e : Executor) (dir : Str) (env : List (Str × Str))
    (t : Str) (ev : Event) : Prop :=
  ∃ s iter output err, iter.Perm env ∧ ev = Event.combinedOutput
    ⟨e.shell.Path, e.shell.Args ++ [t], dir, buildEnv (h.Environ s) iter⟩ output err

/-! ## The shapes of a run -/

/-- The traces and results `startAndWait` can produce for command `cmd` and
input `input`. -/
def WaitShape (cmd : Cmd) (input : Str) (tr : List Event) (out : Str)
    (err : Option Str) : Prop :=
  (∃ m, tr = [Event.start cmd (Started.error m)] ∧ out = [] ∧
    err = some (lit "failed to start command: " ++ m)) ∨
  ∃ pid,
    (∃ m, tr = [Event.start cmd (Started.ok pid), Event.stdinWrite input (some m)] ∧
      out = [] ∧ err = some (lit "failed to write input: " ++ m)) ∨
    (∃ m, tr = [Event.start cmd (Started.ok pid), Event.stdinWrite input none,
        Event.stdinClose (some m)] ∧
      out = [] ∧ err = some (lit "failed to close stdin: " ++ m)) ∨
    (∃ m o eo, tr = [Event.start cmd (Started.ok pid), Event.stdinWrite input none,
        Event.stdinClose none, Event.waitDone (some m) o eo] ∧
      out = [] ∧
      err = some (lit "command failed: " ++ m ++ lit "\nstdout: " ++ o
        ++ lit "\nstderr: " ++ eo)) ∨
    (∃ o eo, tr = [Event.start cmd (Started.ok pid), Event.stdinWrite input none,
        Event.stdinClose none, Event.waitDone none o eo] ∧
      out = o ∧ err = none) ∨
    (tr = [Event.start cmd (Started.ok pid), Event.stdinWrite input none,
        Event.stdinClose none, Event.ctxDone, Event.kill pid] ∧
      out = [] ∧ err = some (lit "command timed out"))

/-- The command `ExecuteTest` builds for the script at `path`: the shell with
its flags and `path`, working directory `dir`, and the environment `buildEnv`
makes of the ambient environment of some host state and of the pairs of
`test.Environment` in some order. -/
def IsScriptCmd (h : Host σ κ) (e : Executor) (dir path : Str) (test : Test)
    (cmd : Cmd) : Prop :=
  ∃ s iter, iter.Perm test.Environment ∧
    cmd = ⟨e.shell.Path, e.shell.Args ++ [path], dir, buildEnv (h.Environ s) iter⟩

/-- The traces and results `runScript` can produce. -/
def ScriptShape (h : Host σ κ) (e : Executor) (dir path : Str) (test : Test)
    (tr : List Event) (out : Str) (err : Option Str) : Prop :=
  ∃ cmd, IsScriptCmd h e dir path test cmd ∧
    ((∃ m, tr = [Event.stdinPipe cmd (some m)] ∧ out = [] ∧
        err = some (lit "failed to create stdin pipe: " ++ m)) ∨
     (∃ sw c, tr = Event.stdinPipe cmd none :: sw ++ [Event.stdinClose c] ∧
        WaitShape cmd test.Input sw out err))

/-- The traces and results of `ExecuteTest` between the registration of the
deferred removal of `dir` and the return. -/
def BodyShape (h : Host σ κ) (e : Executor) (script : Str) (test : Test) (dir : Str)
    (tr : List Event) (out : Str) (err : Option Str) : Prop :=
  (∃ m, tr = [Event.writeFile (h.Join dir (lit "script.sh")) script scriptFileMode (some m)] ∧
    out = [] ∧ err = some (lit "failed to write script: " ++ m)) ∨
  (∃ pre c o m,
    tr = Event.writeFile (h.Join dir (lit "script.sh")) script scriptFileMode none ::
      (pre ++ [Event.combinedOutput c o (some m)]) ∧
    pre.length < test.Setup.length ∧
    List.Forall₂ (IsSetupRun h e dir test.Environment) (test.Setup.take (pre.length + 1))
      (pre ++ [Event.combinedOutput c o (some m)]) ∧
    (∀ ev ∈ pre, ev.setupErr = none) ∧ out = [] ∧
    err = some (lit "setup command failed: " ++
      (lit "command failed: " ++ m ++ lit "\noutput: " ++ o))) ∨
  (∃ evs rs,
    tr = Event.writeFile (h.Join dir (lit "script.sh")) script scriptFileMode none ::
      (evs ++ rs) ∧
    List.Forall₂ (IsSetupRun h e dir test.Environment) test.Setup evs ∧
    (∀ ev ∈ evs, ev.setupErr = none) ∧
    ScriptShape h e dir (h.Join dir (lit "script.sh")) test rs out err)

/-- Whether an event is a `cmd.Start`. -/
def Event.isStart : Event → Bool
  | Event.start _ _ => true
  | _ => false

/-- Whether an event acts on the isolated directory as a whole or writes the
script file: provisioning, script write, removal. -/
def Event.isProvision : Event → Bool
  | Event.prepare _ _ => true
  | Event.writeFile _ _ _ _ => true
  | Event.removeAll _ => true
  | _ => false

/-! ## Conditions and examples used in the statements -/

/-- Setup and script command of the example run share this environment. -/
def demoEnv : List Str := [lit "FOO=ambient", lit "FOO=override"]

/-- The command the example run starts for the script. -/
def demoScriptCmd : Cmd :=
  ⟨lit "/bin/sh", [lit "-c", lit "/w/script-/script.sh"], lit "/w/script-", demoEnv⟩

/-- What the example run does before it starts the script. -/
def demoBefore : List Event :=
  [Event.prepare (lit "/w") (Res.ok (lit "/w/script-")),
   Event.writeFile (lit "/w/script-/script.sh") (lit "cat") 0o750 none,
   Event.combinedOutput
     ⟨lit "/bin/sh", [lit "-c", lit "echo A >> log"], lit "/w/script-", demoEnv⟩ [] none,
   Event.combinedOutput
     ⟨lit "/bin/sh", [lit "-c", lit "echo B >> log"], lit "/w/script-", demoEnv⟩
     (lit "echo A >> log") none,
   Event.stdinPipe demoScriptCmd none]

/-- What the example run does after it started the script. -/
def demoAfter : List Event :=
  [Event.stdinWrite (lit "hello\n") none, Event.stdinClose none,
   Event.waitDone none (lit "hello\n") [], Event.stdinClose none,
   Event.removeAll (lit "/w/script-")]

/-- The example host's state once the directory is provisioned and the script
written. -/
def demoWritten : DemoState := ⟨[lit "/w/script-"], [], [], []⟩

/-- The example host's state once both setup commands have run. -/
def demoSetUp : DemoState :=
  ⟨[lit "/w/script-"], [], [lit "echo A >> log", lit "echo B >> log"], []⟩

/-- The example host's state once the input is written to the child. -/
def demoFed : DemoState :=
  ⟨[lit "/w/script-"], lit "hello\n", [lit "echo A >> log", lit "echo B >> log"], []⟩

/-- The two setup events of the example run: the second command prints what
the first one left in the journal. -/
def demoSetupEvents : List Event :=
  [Event.combinedOutput
     ⟨lit "/bin/sh", [lit "-c", lit "echo A >> log"], lit "/w/script-", demoEnv⟩ [] none,
   Event.combinedOutput
     ⟨lit "/bin/sh", [lit "-c", lit "echo B >> log"], lit "/w/script-", demoEnv⟩
     (lit "echo A >> log") none]

/-! ## The setup loop -/

/-- The event and the error of one `runCommand`. -/
theorem runCommand_spec (h : Host σ κ) (e : Executor) (s : σ) (ctx : κ) (dir cmd : Str)
    (env : List (Str × Str)) :
    ∃ output err,
      (runCommand h e s ctx dir cmd env).2.1 = Event.combinedOutput
        ⟨e.shell.Path, e.shell.Args ++ [cmd], dir,
          buildEnv (h.Environ s) (h.rangeOrder s env).1⟩ output err ∧
      (runCommand h e s ctx dir cmd env).2.2 =
        err.map (fun m => lit "command failed: " ++ m ++ lit "\noutput: " ++ output) := by
  dsimp only [runCommand]
  split
  · exact ⟨_, _, rfl, rfl⟩
  · exact ⟨_, _, rfl, rfl⟩

/-- The setup loop runs the first `n` commands, one event each and in order;
it returns no error exactly when all of them ran with success, and otherwise
the failing command is the last one run. -/
theorem runSetup_spec (h : Host σ κ) (e : Executor) (ctx : κ) (dir : Str)
    (env : List (Str × Str)) (cmds : List Str) : ∀ s : σ,
    ∃ n, n ≤ cmds.length ∧
      List.Forall₂ (IsSetupRun h e dir env) (cmds.take n) (runSetup h e ctx dir env s cmds).2.1 ∧
      ((runSetup h e ctx dir env s cmds).2.2 = none →
        n = cmds.length ∧ ∀ ev ∈ (runSetup h e ctx dir env s cmds).2.1, ev.setupErr = none) ∧
      (∀ msg, (runSetup h e ctx dir env s cmds).2.2 = some msg →
        ∃ pre c output err,
          (runSetup h e ctx dir env s cmds).2.1 = pre ++ [Event.combinedOutput c output (some err)] ∧
          (∀ ev ∈ pre, ev.setupErr = none) ∧
          msg = lit "setup command failed: " ++
            (lit "command failed: " ++ err ++ lit "\noutput: " ++ output)) := by
  induction cmds with
  | nil =>
    intro s
    exact ⟨0, le_refl _, by simp [runSetup], by simp [runSetup], by simp [runSetup]⟩
  | cons t rest ih =>
    intro s
    obtain ⟨output, err, hev, hres⟩ := runCommand_spec h e s ctx dir t env
    unfold runSetup
    split
    · rename_i s1 ev err1 heq
      rw [heq] at hev hres
      simp only at hev hres
      cases err with
      | none => simp at hres
      | some m =>
        simp only [Option.map_some', Option.some.injEq] at hres
        refine ⟨1, by simp, ?_, by simp, ?_⟩
        · simp only [List.take_succ_cons, List.take_zero, List.forall₂_cons,
            List.forall₂_nil_left_iff, and_true]
          exact ⟨s, _, output, some m, (h.rangeOrder s env).2, hev⟩
        · intro msg hmsg
          simp only [Option.some.injEq] at hmsg
          subst hev
          exact ⟨[], _, output, m, rfl, by simp, by rw [← hmsg, hres]⟩
    · rename_i s1 ev heq
      rw [heq] at hev hres
      simp only at hev hres
      obtain ⟨n, hn, hall, hnone, hsome⟩ := ih s1
      cases err with
      | some m => simp at hres
      | none =>
        refine ⟨n + 1, by simp [hn], ?_, ?_, ?_⟩
        · simp only [List.take_succ_cons, List.forall₂_cons]
          exact ⟨⟨s, _, output, none, (h.rangeOrder s env).2, hev⟩, hall⟩
        · intro hr
          obtain ⟨h1, h2⟩ := hnone hr
          refine ⟨by simp [h1], ?_⟩
          intro ev' hmem
          simp only [List.mem_cons] at hmem
          rcases hmem with rfl | hmem
          · rw [hev]; rfl
          · exact h2 _ hmem
        · intro msg hmsg
          obtain ⟨pre, c, o, er, htr, hpre, hm⟩ := hsome msg hmsg
          refine ⟨ev :: pre, c, o, er, by simp [htr], ?_, hm⟩
          intro ev' hmem
          simp only [List.mem_cons] at hmem
          rcases hmem with rfl | hmem
          · rw [hev]; rfl
          · exact hpre _ hmem

/-- An event of `runCommand` is a setup event. -/
theorem isSetup_of_isSetupRun {h : Host σ κ} {e : Executor} {dir : Str}
    {env : List (Str × Str)} {t : Str} {ev : Event} (hr : IsSetupRun h e dir env t ev) :
    ev.isSetup = true := by
  obtain ⟨s, iter, o, er, -, rfl⟩ := hr
  rfl

/-- Events matched with setup commands are setup events. -/
theorem forall₂_isSetup {h : Host σ κ} {e : Executor} {dir : Str}
    {env : List (Str × Str)} {ts : List Str} {evs : List Event}
    (hall : List.Forall₂ (IsSetupRun h e dir env) ts evs) :
    ∀ ev ∈ evs, ev.isSetup = true := by
  induction hall with
  | nil => simp
  | cons hr _ ih =>
    intro ev hmem
    simp only [List.mem_cons] at hmem
    rcases hmem with rfl | hmem
    · exact isSetup_of_isSetupRun hr
    · exact ih _ hmem

/-- Setup events are not starts of a process. -/
theorem setupRun_not_start {h : Host σ κ} {e : Executor} {dir : Str}
    {env : List (Str × Str)} {ts : List Str} {evs : List Event}
    (hall : List.Forall₂ (IsSetupRun h e dir env) ts evs) :
    ∀ ev ∈ evs, ev.isStart = false := by
  induction hall with
  | nil => simp
  | cons hr _ ih =>
    intro ev hmem
    simp only [List.mem_cons] at hmem
    rcases hmem with rfl | hmem
    · obtain ⟨s, iter, o, er, -, rfl⟩ := hr
      rfl
    · exact ih _ hmem

/-- Setup events do not provision, write the script or remove. -/
theorem setupRun_isProvision {h : Host σ κ} {e : Executor} {dir : Str}
    {env : List (Str × Str)} {ts : List Str} {evs : List Event}
    (hall : List.Forall₂ (IsSetupRun h e dir env) ts evs) :
    ∀ ev ∈ evs, ev.isProvision = false := by
  intro ev hev
  have := forall₂_isSetup hall ev hev
  cases ev <;> simp [Event.isSetup] at this
  rfl

/-- Filtering a list of setup events keeps all of it. -/
theorem setupEvents_of_all {evs : List Event} (hall : ∀ ev ∈ evs, ev.isSetup = true) :
    setupEvents evs = evs := by
  unfold setupEvents
  exact List.filter_eq_self.mpr hall

/-- The setup events of a concatenation. -/
theorem setupEvents_append (a b : List Event) :
    setupEvents (a ++ b) = setupEvents a ++ setupEvents b := by
  simp [setupEvents]

/-- The setup events of a trace made of two other events, setup events and a
tail without setup events. -/
theorem setupEvents_frame {d w : Event} {mid tail : List Event} (hd : d.isSetup = false)
    (hw : w.isSetup = false) (hmid : ∀ ev ∈ mid, ev.isSetup = true)
    (htail : setupEvents tail = []) : setupEvents (d :: w :: (mid ++ tail)) = mid := by
  unfold setupEvents at htail ⊢
  simp [List.filter_cons, hd, hw, List.filter_append, htail, List.filter_eq_self.mpr hmid]

/-- The setup events of a trace that begins with the provisioning and the
script write, continues with setup events and ends without any. -/
theorem setupEvents_run (wd dir path script : Str) (w : Option Str) {mid tail : List Event}
    (hmid : ∀ ev ∈ mid, ev.isSetup = true) (htail : setupEvents tail = []) :
    setupEvents (Event.prepare wd (Res.ok dir) ::
      Event.writeFile path script scriptFileMode w :: (mid ++ tail)) = mid :=
  setupEvents_frame rfl rfl hmid htail

/-- A failed setup command is not among successful events. -/
theorem not_mem_of_setupErr_none {evs : List Event} (hok : ∀ ev ∈ evs, ev.setupErr = none)
    (c : Cmd) (output err : Str) : Event.combinedOutput c output (some err) ∉ evs := by
  intro hmem
  have := hok _ hmem
  simp [Event.setupErr] at this

/-- A setup command is not in a trace without setup events. -/
theorem not_mem_of_setupEvents_nil {evs : List Event} (hnil : setupEvents evs = [])
    (c : Cmd) (output : Str) (err : Option Str) : Event.combinedOutput c output err ∉ evs := by
  intro hmem
  have : Event.combinedOutput c output err ∈ setupEvents evs := by
    simp [setupEvents, hmem, Event.isSetup]
  rw [hnil] at this
  simp at this

/-- An event that is no setup event is not among setup events. -/
theorem not_mem_of_all_isSetup {evs : List Event} (hall : ∀ ev ∈ evs, ev.isSetup = true)
    {x : Event} (hx : x.isSetup = false) : x ∉ evs := by
  intro hmem
  rw [hall x hmem] at hx
  cases hx

/-- Taking one more than the length of `pre` from `pre ++ x :: post`. -/
theorem take_succ_append_cons {α : Type} (pre post : List α) (x : α) :
    (pre ++ x :: post).take (pre.length + 1) = pre ++ [x] := by
  induction pre with
  | nil => simp
  | cons y pre ih => simp [ih]

/-! ## The setup loop against sequential execution -/

/-- One `runCommand`, read off the host's answer. -/
theorem runCommand_eq (h : Host σ κ) (e : Executor) (s : σ) (ctx : κ) (dir t : Str)
    (env : List (Str × Str)) :
    runCommand h e s ctx dir t env =
      ((h.CombinedOutput s ctx (setupCmd h e dir env s t)).1,
        Event.combinedOutput (setupCmd h e dir env s t)
          (h.CombinedOutput s ctx (setupCmd h e dir env s t)).2.1
          (h.CombinedOutput s ctx (setupCmd h e dir env s t)).2.2,
        (h.CombinedOutput s ctx (setupCmd h e dir env s t)).2.2.map
          (fun m => lit "command failed: " ++ m ++ lit "\noutput: " ++
            (h.CombinedOutput s ctx (setupCmd h e dir env s t)).2.1)) := by
  dsimp only [runCommand, setupCmd]
  split
  · rename_i heq
    rw [heq]
    rfl
  · rename_i heq
    rw [heq]
    rfl

/-- The setup loop against sequential execution: either every command of the
chain succeeds, and the loop returns no error, the events of the whole chain
and its last state; or the loop stops at the first command of the chain that
fails, having issued the events of the chain up to and including it. -/
theorem runSetup_chain (h : Host σ κ) (e : Executor) (ctx : κ) (dir : Str)
    (env : List (Str × Str)) (cmds : List Str) : ∀ s : σ,
    ((∀ p ∈ setupChain h e ctx dir env s cmds, p.1.setupErr = none) ∧
      runSetup h e ctx dir env s cmds =
        (setupEnd h e ctx dir env s cmds,
          (setupChain h e ctx dir env s cmds).map Prod.fst, none)) ∨
    (∃ pre c o m post sF,
      (setupChain h e ctx dir env s cmds).map Prod.fst =
        pre ++ Event.combinedOutput c o (some m) :: post ∧
      (∀ ev ∈ pre, ev.setupErr = none) ∧
      runSetup h e ctx dir env s cmds =
        (sF, pre ++ [Event.combinedOutput c o (some m)],
          some (lit "setup command failed: " ++
            (lit "command failed: " ++ m ++ lit "\noutput: " ++ o)))) := by
  induction cmds with
  | nil =>
    intro s
    left
    exact ⟨by simp [setupChain], rfl⟩
  | cons t ts ih =>
    intro s
    have hrun := runCommand_eq h e s ctx dir t env
    cases herr : (h.CombinedOutput s ctx (setupCmd h e dir env s t)).2.2 with
    | some m =>
      right
      refine ⟨[], setupCmd h e dir env s t,
        (h.CombinedOutput s ctx (setupCmd h e dir env s t)).2.1, m,
        (setupChain h e ctx dir env
          (h.CombinedOutput s ctx (setupCmd h e dir env s t)).1 ts).map Prod.fst,
        (h.CombinedOutput s ctx (setupCmd h e dir env s t)).1, ?_, by simp, ?_⟩
      · simp [setupChain, herr]
      · rw [herr] at hrun
        simp only [runSetup, hrun, Option.map_some', List.nil_append]
    | none =>
      rw [herr] at hrun
      rcases ih (h.CombinedOutput s ctx (setupCmd h e dir env s t)).1 with
        ⟨hok, heq⟩ | ⟨pre, c, o, m, post, sF, hch, hpre, heq⟩
      · left
        refine ⟨?_, ?_⟩
        · intro p hp
          simp only [setupChain, List.mem_cons] at hp
          rcases hp with rfl | hp
          · exact herr
          · exact hok p hp
        · simp only [runSetup, hrun, Option.map_none', heq, setupEnd, setupChain,
            List.map_cons, herr]
      · right
        refine ⟨Event.combinedOutput (setupCmd h e dir env s t)
            (h.CombinedOutput s ctx (setupCmd h e dir env s t)).2.1 none :: pre,
          c, o, m, post, sF, ?_, ?_, ?_⟩
        · simp [setupChain, herr, hch]
        · intro ev hev
          simp only [List.mem_cons] at hev
          rcases hev with rfl | hev
          · rfl
          · exact hpre ev hev
        · simp only [runSetup, hrun, Option.map_none', heq, List.cons_append]

/-- When every command of the chain succeeds, the setup loop returns no
error, the events of the chain and its last state. -/
theorem runSetup_of_chain_ok (h : Host σ κ) (e : Executor) (ctx : κ) (dir : Str)
    (env : List (Str × Str)) (cmds : List Str) (s : σ)
    (hok : ∀ p ∈ setupChain h e ctx dir env s cmds, p.1.setupErr = none) :
    runSetup h e ctx dir env s cmds =
      (setupEnd h e ctx dir env s cmds, (setupChain h e ctx dir env s cmds).map Prod.fst,
        none) := by
  rcases runSetup_chain h e ctx dir env cmds s with
    ⟨-, heq⟩ | ⟨pre, c, o, m, post, sF, hch, -, -⟩
  · exact heq
  · exfalso
    have hmem : Event.combinedOutput c o (some m) ∈
        (setupChain h e ctx dir env s cmds).map Prod.fst := by
      rw [hch]; simp
    obtain ⟨p, hp, hpe⟩ := List.mem_map.mp hmem
    have := hok p hp
    rw [hpe] at this
    simp [Event.setupErr] at this

/-- The events of a chain are setup events. -/
theorem setupChain_isSetup (h : Host σ κ) (e : Executor) (ctx : κ) (dir : Str)
    (env : List (Str × Str)) (cmds : List Str) : ∀ s : σ,
    ∀ ev ∈ (setupChain h e ctx dir env s cmds).map Prod.fst, ev.isSetup = true := by
  induction cmds with
  | nil => intro s ev hev; simp [setupChain] at hev
  | cons t ts ih =>
    intro s ev hev
    simp only [setupChain, List.map_cons, List.mem_cons] at hev
    rcases hev with rfl | hev
    · rfl
    · exact ih _ ev hev

/-- A chain lists one event per command. -/
theorem setupChain_length (h : Host σ κ) (e : Executor) (ctx : κ) (dir : Str)
    (env : List (Str × Str)) (cmds : List Str) : ∀ s : σ,
    (setupChain h e ctx dir env s cmds).length = cmds.length := by
  induction cmds with
  | nil => intro s; rfl
  | cons t ts ih => intro s; simp [setupChain, ih]

/-! ## The shapes of a run -/

/-- Every run of `startAndWait` has one of the shapes of `WaitShape`. -/
theorem startAndWait_shape (h : Host σ κ) (s : σ) (ctx : κ) (cmd : Cmd) (test : Test) :
    WaitShape cmd test.Input (startAndWait h s ctx cmd test).trace
      (startAndWait h s ctx cmd test).output (startAndWait h s ctx cmd test).err := by
  unfold startAndWait
  split
  · exact Or.inl ⟨_, rfl, rfl, rfl⟩
  · rename_i s1 pid heq
    refine Or.inr ⟨pid, ?_⟩
    split
    · exact Or.inl ⟨_, rfl, rfl, rfl⟩
    · split
      · exact Or.inr (Or.inl ⟨_, rfl, rfl, rfl⟩)
      · split
        · exact Or.inr (Or.inr (Or.inl ⟨_, _, _, rfl, rfl, rfl⟩))
        · exact Or.inr (Or.inr (Or.inr (Or.inl ⟨_, _, rfl, rfl, rfl⟩)))
        · exact Or.inr (Or.inr (Or.inr (Or.inr ⟨rfl, rfl, rfl⟩)))

/-- Every run of `runScript` has one of the shapes of `ScriptShape`. -/
theorem runScript_shape (h : Host σ κ) (e : Executor) (s : σ) (ctx : κ) (dir path : Str)
    (test : Test) :
    ScriptShape h e dir path test (runScript h e s ctx dir path test).trace
      (runScript h e s ctx dir path test).output (runScript h e s ctx dir path test).err := by
  refine ⟨_, ⟨s, _, (h.rangeOrder s test.Environment).2, rfl⟩, ?_⟩
  dsimp only [runScript]
  split
  · exact Or.inl ⟨_, rfl, rfl, rfl⟩
  · exact Or.inr ⟨_, _, rfl, startAndWait_shape _ _ _ _ _⟩

/-- Every run of `inTestDir` has one of the shapes of `BodyShape`. -/
theorem inTestDir_shape (h : Host σ κ) (e : Executor) (s : σ) (ctx : κ) (script : Str)
    (test : Test) (dir : Str) :
    BodyShape h e script test dir (inTestDir h e s ctx script test dir).trace
      (inTestDir h e s ctx script test dir).output (inTestDir h e s ctx script test dir).err := by
  dsimp only [inTestDir]
  split
  · exact Or.inl ⟨_, rfl, rfl, rfl⟩
  · rename_i s1 _
    obtain ⟨n, hn, hall, hnone, hsome⟩ :=
      runSetup_spec h e ctx dir test.Environment test.Setup s1
    split
    · rename_i s2 evs msg heq
      rw [heq] at hall hsome
      obtain ⟨pre, c, o, m, htr, hpre, hmsg⟩ := hsome msg rfl
      simp only at htr
      subst htr
      have hlen := hall.length_eq
      simp only [List.length_take, List.length_append, List.length_singleton] at hlen
      have hn' : n = pre.length + 1 := by omega
      subst hn'
      exact Or.inr (Or.inl ⟨pre, c, o, m, rfl, by omega, hall, hpre, rfl, by rw [hmsg]⟩)
    · rename_i s2 evs heq
      rw [heq] at hall hnone
      obtain ⟨hlen, hok⟩ := hnone rfl
      subst hlen
      rw [List.take_length] at hall
      exact Or.inr (Or.inr ⟨evs, _, rfl, hall, hok, runScript_shape _ _ _ _ _ _ _⟩)

/-- The shapes a run of `ExecuteTest` can take. -/
theorem ExecuteTest_shape (h : Host σ κ) (e : Executor) (s : σ) (ctx : κ) (script : Str)
    (test : Test) :
    (∃ reason, h.ValidateScript script = some reason ∧
      ExecuteTest h e s ctx script test =
        ⟨s, [], [], some (lit "script validation failed: " ++ reason)⟩) ∨
    (h.ValidateScript script = none ∧
      ((∃ s1 m, h.PrepareScriptEnvironment s e.workDir = (s1, Res.error m) ∧
        ExecuteTest h e s ctx script test =
          ⟨s1, [Event.prepare e.workDir (Res.error m)], [],
            some (lit "failed to prepare test environment: " ++ m)⟩) ∨
       (∃ s1 dir sb body, h.PrepareScriptEnvironment s e.workDir = (s1, Res.ok dir) ∧
        (ExecuteTest h e s ctx script test).state = h.RemoveAll sb dir ∧
        (ExecuteTest h e s ctx script test).trace =
          Event.prepare e.workDir (Res.ok dir) :: body ++ [Event.removeAll dir] ∧
        BodyShape h e script test dir body (ExecuteTest h e s ctx script test).output
          (ExecuteTest h e s ctx script test).err))) := by
  unfold ExecuteTest
  split
  · rename_i reason heq
    exact Or.inl ⟨reason, heq, rfl⟩
  · rename_i hv
    refine Or.inr ⟨hv, ?_⟩
    split
    · rename_i s1 m heq
      exact Or.inl ⟨s1, m, heq, rfl⟩
    · rename_i s1 dir heq
      exact Or.inr ⟨s1, dir, _, _, heq, rfl, rfl, inTestDir_shape _ _ _ _ _ _ _⟩

/-- No setup command runs within `startAndWait`. -/
theorem waitShape_setupEvents {cmd : Cmd} {input : Str} {tr : List Event} {out : Str}
    {err : Option Str} (hw : WaitShape cmd input tr out err) : setupEvents tr = [] := by
  rcases hw with ⟨m, rfl, -, -⟩ | ⟨pid, ⟨m, rfl, -, -⟩ | ⟨m, rfl, -, -⟩ | ⟨m, o, eo, rfl, -, -⟩ |
    ⟨o, eo, rfl, -, -⟩ | ⟨rfl, -, -⟩⟩ <;> rfl

/-- No setup command runs within `runScript`. -/
theorem scriptShape_setupEvents {h : Host σ κ} {e : Executor} {dir path : Str} {test : Test}
    {tr : List Event} {out : Str} {err : Option Str}
    (hs : ScriptShape h e dir path test tr out err) : setupEvents tr = [] := by
  obtain ⟨cmd, -, ⟨m, rfl, -, -⟩ | ⟨sw, c, rfl, hw⟩⟩ := hs
  · rfl
  · have := waitShape_setupEvents hw
    simp only [setupEvents, List.filter_cons, List.filter_append, Event.isSetup] at this ⊢
    simp [this]

/-- A run of `startAndWait` begins with its only `cmd.Start`. -/
theorem waitShape_start {cmd : Cmd} {input : Str} {tr : List Event} {out : Str}
    {err : Option Str} (hw : WaitShape cmd input tr out err) :
    ∃ res rest, tr = Event.start cmd res :: rest ∧ ∀ ev ∈ rest, ev.isStart = false := by
  rcases hw with ⟨m, rfl, -, -⟩ | ⟨pid, ⟨m, rfl, -, -⟩ | ⟨m, rfl, -, -⟩ | ⟨m, o, eo, rfl, -, -⟩ |
    ⟨o, eo, rfl, -, -⟩ | ⟨rfl, -, -⟩⟩ <;>
  exact ⟨_, _, rfl, by simp [Event.isStart]⟩

/-- Nothing within `startAndWait` provisions, writes the script or removes. -/
theorem waitShape_isProvision {cmd : Cmd} {input : Str} {tr : List Event} {out : Str}
    {err : Option Str} (hw : WaitShape cmd input tr out err) :
    ∀ ev ∈ tr, ev.isProvision = false := by
  rcases hw with ⟨m, rfl, -, -⟩ | ⟨pid, ⟨m, rfl, -, -⟩ | ⟨m, rfl, -, -⟩ | ⟨m, o, eo, rfl, -, -⟩ |
    ⟨o, eo, rfl, -, -⟩ | ⟨rfl, -, -⟩⟩ <;> simp [Event.isProvision]

/-- Nothing within `runScript` provisions, writes the script or removes. -/
theorem scriptShape_isProvision {h : Host σ κ} {e : Executor} {dir path : Str} {test : Test}
    {tr : List Event} {out : Str} {err : Option Str}
    (hs : ScriptShape h e dir path test tr out err) :
    ∀ ev ∈ tr, ev.isProvision = false := by
  obtain ⟨cmd, -, ⟨m, rfl, -, -⟩ | ⟨sw, c, rfl, hw⟩⟩ := hs
  · simp [Event.isProvision]
  · intro ev hev
    simp at hev
    rcases hev with rfl | hev | rfl
    · rfl
    · exact waitShape_isProvision hw ev hev
    · rfl

/-- The body of a run in the isolated directory starts with the write of the
script file, with mode `scriptFileMode`, and holds no other provisioning
event. -/
theorem bodyShape_write {h : Host σ κ} {e : Executor} {script : Str} {test : Test}
    {dir : Str} {tr : List Event} {out : Str} {err : Option Str}
    (hb : BodyShape h e script test dir tr out err) :
    ∃ w rest, tr = Event.writeFile (h.Join dir (lit "script.sh")) script scriptFileMode w
        :: rest ∧
      ∀ ev ∈ rest, ev.isProvision = false := by
  rcases hb with ⟨m, rfl, -, -⟩ | ⟨pre, c, o, m, rfl, -, hall, -, -, -⟩ |
    ⟨evs, rs, rfl, hall, -, hs⟩
  · exact ⟨_, [], rfl, by simp⟩
  · exact ⟨_, _, rfl, setupRun_isProvision hall⟩
  · refine ⟨_, _, rfl, ?_⟩
    intro ev hev
    rcases List.mem_append.mp hev with hev | hev
    · exact setupRun_isProvision hall ev hev
    · exact scriptShape_isProvision hs ev hev

/-- A list holding exactly one event that satisfies `p` splits at it in one way
only. -/
theorem split_unique {p : Event → Bool} {x y : Event} :
    ∀ {a b pre post : List Event}, (∀ ev ∈ a, p ev = false) → (∀ ev ∈ b, p ev = false) →
      p y = true → a ++ x :: b = pre ++ y :: post → pre = a ∧ y = x ∧ post = b := by
  intro a
  induction a with
  | nil =>
    intro b pre post _ hb hy heq
    cases pre with
    | nil =>
      simp only [List.nil_append, List.cons.injEq] at heq
      exact ⟨rfl, heq.1.symm, heq.2.symm⟩
    | cons z pre =>
      simp only [List.nil_append, List.cons_append, List.cons.injEq] at heq
      have hmem : y ∈ b := by rw [heq.2]; simp
      rw [hb y hmem] at hy
      cases hy
  | cons z a ih =>
    intro b pre post ha hb hy heq
    cases pre with
    | nil =>
      simp only [List.nil_append, List.cons_append, List.cons.injEq] at heq
      have hz := ha z (by simp)
      rw [heq.1, hy] at hz
      cases hz
    | cons w pre =>
      simp only [List.cons_append, List.cons.injEq] at heq
      obtain ⟨h1, h2, h3⟩ := ih (fun ev hev => ha ev (by simp [hev])) hb hy heq.2
      exact ⟨by rw [heq.1, h1], h2, h3⟩

/-- The timeout message does not begin like the message of a failed command. -/
theorem timed_out_ne_failed (rest : Str) :
    lit "command timed out" ≠ lit "command failed: " ++ rest := by
  simp [lit]

/-- The concrete host's `RemoveAll` leaves the removed path absent. -/
theorem demoHost_removeAll (proc : Str → Outcome) (s : DemoState) (p : Str) :
    (demoHost proc).dirExists ((demoHost proc).RemoveAll s p) p = false := by
  simp [demoHost]

/-! ## Runs along the successful path -/

/-- The run of `ExecuteTest` when the script is accepted, the directory
provisioned, the script written and the setup loop returns no error. -/
theorem ExecuteTest_setup_ok (h : Host σ κ) (e : Executor) (s s1 s2 s3 : σ) (ctx : κ)
    (script : Str) (test : Test) (dir : Str) (evs : List Event)
    (hacc : h.ValidateScript script = none)
    (hprep : h.PrepareScriptEnvironment s e.workDir = (s1, Res.ok dir))
    (hwrite : h.WriteFile s1 (h.Join dir (lit "script.sh")) script scriptFileMode = (s2, none))
    (hrs : runSetup h e ctx dir test.Environment s2 test.Setup = (s3, evs, none)) :
    ExecuteTest h e s ctx script test =
      ⟨h.RemoveAll (runScript h e s3 ctx dir (h.Join dir (lit "script.sh")) test).state dir,
        Event.prepare e.workDir (Res.ok dir) ::
          (Event.writeFile (h.Join dir (lit "script.sh")) script scriptFileMode none ::
            (evs ++ (runScript h e s3 ctx dir (h.Join dir (lit "script.sh")) test).trace))
          ++ [Event.removeAll dir],
        (runScript h e s3 ctx dir (h.Join dir (lit "script.sh")) test).output,
        (runScript h e s3 ctx dir (h.Join dir (lit "script.sh")) test).err⟩ := by
  simp only [ExecuteTest, hacc, hprep, inTestDir, hwrite, hrs]

/-- The run of `ExecuteTest` when the script is accepted, the directory
provisioned, the script written and the setup loop returns an error. -/
theorem ExecuteTest_setup_fail (h : Host σ κ) (e : Executor) (s s1 s2 s3 : σ) (ctx : κ)
    (script : Str) (test : Test) (dir : Str) (evs : List Event) (msg : Str)
    (hacc : h.ValidateScript script = none)
    (hprep : h.PrepareScriptEnvironment s e.workDir = (s1, Res.ok dir))
    (hwrite : h.WriteFile s1 (h.Join dir (lit "script.sh")) script scriptFileMode = (s2, none))
    (hrs : runSetup h e ctx dir test.Environment s2 test.Setup = (s3, evs, some msg)) :
    ExecuteTest h e s ctx script test =
      ⟨h.RemoveAll s3 dir,
        Event.prepare e.workDir (Res.ok dir) ::
          (Event.writeFile (h.Join dir (lit "script.sh")) script scriptFileMode none :: evs)
          ++ [Event.removeAll dir], [], some msg⟩ := by
  simp only [ExecuteTest, hacc, hprep, inTestDir, hwrite, hrs]

/-- The run of `runScript` when the pipe is created: `startAndWait` in the
state the pipe leaves, then the deferred close. -/
theorem runScript_piped (h : Host σ κ) (e : Executor) (s s4 : σ) (ctx : κ)
    (dir path : Str) (test : Test)
    (hpipe : h.StdinPipe s (scriptCmd h e dir path test s) = (s4, none)) :
    runScript h e s ctx dir path test =
      ⟨(h.StdinClose (startAndWait h s4 ctx (scriptCmd h e dir path test s) test).state).1,
        Event.stdinPipe (scriptCmd h e dir path test s) none ::
          (startAndWait h s4 ctx (scriptCmd h e dir path test s) test).trace ++
          [Event.stdinClose
            (h.StdinClose (startAndWait h s4 ctx (scriptCmd h e dir path test s) test).state).2],
        (startAndWait h s4 ctx (scriptCmd h e dir path test s) test).output,
        (startAndWait h s4 ctx (scriptCmd h e dir path test s) test).err⟩ := by
  unfold scriptCmd at hpipe
  simp only [runScript, hpipe, scriptCmd]

/-- The run of `runScript` when the pipe cannot be created. -/
theorem runScript_no_pipe (h : Host σ κ) (e : Executor) (s s4 : σ) (ctx : κ)
    (dir path : Str) (test : Test) (m : Str)
    (hpipe : h.StdinPipe s (scriptCmd h e dir path test s) = (s4, some m)) :
    runScript h e s ctx dir path test =
      ⟨s4, [Event.stdinPipe (scriptCmd h e dir path test s) (some m)], [],
        some (lit "failed to create stdin pipe: " ++ m)⟩ := by
  unfold scriptCmd at hpipe
  simp only [runScript, hpipe, scriptCmd]

/-- A run of `startAndWait` begins with the start of its command in the state
it was given, with the result the host returns there, and starts nothing
else. -/
theorem startAndWait_start (h : Host σ κ) (s : σ) (ctx : κ) (cmd : Cmd) (test : Test) :
    ∃ rest, (startAndWait h s ctx cmd test).trace =
        Event.start cmd (h.Start s ctx cmd).2 :: rest ∧
      ∀ ev ∈ rest, ev.isStart = false := by
  unfold startAndWait
  split
  · rename_i heq
    rw [heq]
    exact ⟨[], rfl, by simp⟩
  · rename_i heq
    rw [heq]
    split
    · exact ⟨_, rfl, by simp [Event.isStart]⟩
    · split
      · exact ⟨_, rfl, by simp [Event.isStart]⟩
      · split
        · exact ⟨_, rfl, by simp [Event.isStart]⟩
        · exact ⟨_, rfl, by simp [Event.isStart]⟩
        · exact ⟨_, rfl, by simp [Event.isStart, killProcess]⟩

/-- The run of `startAndWait` when start, write and close succeed and the
wait returns an error. -/
theorem startAndWait_failed (h : Host σ κ) (s4 s5 s6 s7 s8 : σ) (ctx : κ) (cmd : Cmd)
    (test : Test) (pid : Nat) (m stdout stderr : Str)
    (hstart : h.Start s4 ctx cmd = (s5, Started.ok pid))
    (hin : h.StdinWrite s5 test.Input = (s6, none))
    (hclose : h.StdinClose s6 = (s7, none))
    (hsel : h.Select s7 ctx = (s8, Outcome.done (some m) stdout stderr)) :
    startAndWait h s4 ctx cmd test =
      ⟨s8, [Event.start cmd (Started.ok pid), Event.stdinWrite test.Input none,
          Event.stdinClose none, Event.waitDone (some m) stdout stderr], [],
        some (lit "command failed: " ++ m ++ lit "\nstdout: " ++ stdout
          ++ lit "\nstderr: " ++ stderr)⟩ := by
  simp only [startAndWait, hstart, hin, hclose, hsel]

/-- The run of `startAndWait` when start, write and close succeed and the
context is done first. -/
theorem startAndWait_timeout (h : Host σ κ) (s4 s5 s6 s7 s8 : σ) (ctx : κ) (cmd : Cmd)
    (test : Test) (pid : Nat)
    (hstart : h.Start s4 ctx cmd = (s5, Started.ok pid))
    (hin : h.StdinWrite s5 test.Input = (s6, none))
    (hclose : h.StdinClose s6 = (s7, none))
    (hsel : h.Select s7 ctx = (s8, Outcome.ctxDone)) :
    startAndWait h s4 ctx cmd test =
      ⟨h.Kill s8 pid, [Event.start cmd (Started.ok pid), Event.stdinWrite test.Input none,
          Event.stdinClose none, Event.ctxDone, Event.kill pid], [],
        some (lit "command timed out")⟩ := by
  simp only [startAndWait, hstart, hin, hclose, hsel, killProcess, List.cons_append,
    List.nil_append]

/-! ## `buildEnv` and the lookup -/

/-- The loop of `buildEnv` appends one entry per pair, in order. -/
theorem buildEnv_eq (environ : List Str) (iter : List (Str × Str)) :
    buildEnv environ iter = environ ++ iter.map (fun kv => kv.1 ++ '=' :: kv.2) := by
  unfold buildEnv
  induction iter generalizing environ with
  | nil => simp
  | cons kv iter ih => simp [ih]

/-- The name of an entry is read off its key. -/
theorem takeWhile_key (k v : Str) :
    (k ++ '=' :: v).takeWhile (fun c => c != '=') = k.takeWhile (fun c => c != '=') := by
  induction k with
  | nil => simp [List.takeWhile_cons]
  | cons x k ih =>
    rw [List.cons_append, List.takeWhile_cons, List.takeWhile_cons, ih]

/-- A key without `=` is read whole. -/
theorem takeWhile_of_not_mem (k : Str) (hk : '=' ∉ k) :
    k.takeWhile (fun c => c != '=') = k := by
  induction k with
  | nil => rfl
  | cons x k ih =>
    simp only [List.mem_cons, not_or] at hk
    have hx : (x != '=') = true := by
      simp only [bne_iff_ne, ne_eq]
      exact fun hx => hk.1 hx.symm
    rw [List.takeWhile_cons, hx, ih hk.2]
    rfl

/-- The entry of a key without `=` has that key as its name. -/
theorem entryName_entry (k v : Str) (hk : '=' ∉ k) : entryName (k ++ '=' :: v) = k := by
  unfold entryName
  rw [takeWhile_key, takeWhile_of_not_mem k hk]

/-- The entry of a key without `=` has the pair's value as its value. -/
theorem entryValue_entry (k v : Str) (hk : '=' ∉ k) : entryValue (k ++ '=' :: v) = v := by
  unfold entryValue
  induction k with
  | nil => simp [List.dropWhile_cons]
  | cons x k ih =>
    simp only [List.mem_cons, not_or] at hk
    have hx : (x != '=') = true := by
      simp only [bne_iff_ne, ne_eq]
      exact fun hx => hk.1 hx.symm
    rw [List.cons_append, List.dropWhile_cons, hx]
    exact ih hk.2

/-- A key whose entry defines the name `k` is `k` itself or `k` followed by
`=` and more. -/
theorem key_of_entryName (k k' v' : Str) (hname : entryName (k' ++ '=' :: v') = k) :
    k' = k ∨ (k ++ ['=']) <+: k' := by
  unfold entryName at hname
  rw [takeWhile_key] at hname
  subst hname
  induction k' with
  | nil => left; rfl
  | cons x k' ih =>
    by_cases hx : x = '='
    · right
      subst hx
      simp [List.takeWhile_cons]
    · have hx' : (x != '=') = true := by
        simp only [bne_iff_ne, ne_eq]
        exact hx
      rw [List.takeWhile_cons, hx']
      rcases ih with h1 | h2
      · left
        simp only [ite_true]
        rw [← h1]
      · right
        simp only [ite_true, List.cons_append]
        exact (List.cons_prefix_cons).mpr ⟨rfl, h2⟩

/-- When a list holds `x`, `x` satisfies `p` and nothing else in the list does,
`find?` returns `x`. -/
theorem find?_unique {α : Type} (p : α → Bool) (x : α) :
    ∀ l : List α, x ∈ l → p x = true → (∀ y ∈ l, p y = true → y = x) → l.find? p = some x := by
  intro l
  induction l with
  | nil => intro hmem; simp at hmem
  | cons z l ih =>
    intro hmem hx huniq
    by_cases hz : p z = true
    · have := huniq z (by simp) hz
      subst this
      simp [List.find?, hz]
    · have hz' : p z = false := by simpa using hz
      simp only [List.find?, hz']
      have hne : x ≠ z := fun hxz => hz (hxz ▸ hx)
      simp only [List.mem_cons] at hmem
      rcases hmem with hmem | hmem
      · exact absurd hmem hne
      · exact ih hmem hx (fun y hy hpy => huniq y (by simp [hy]) hpy)

/-! ## Locating the JSON object -/

/-- C1: when `ValidateScript` rejects the script, `ExecuteTest` returns the
empty output and the error "script validation failed: " followed by the
validator's reason, issues no effect at all (empty trace: no directory is
provisioned, no file written, no setup command run, no process started) and
leaves the host state as it was. -/
theorem rejected_script_not_executed (h : Host σ κ) (e : Executor) (s : σ) (ctx : κ)
    (script : Str) (test : Test) (reason : Str)
    (hrej : h.ValidateScript script = some reason) :
    ExecuteTest h e s ctx script test =
      ⟨s, [], [], some (lit "script validation failed: " ++ reason)⟩ := by
  unfold ExecuteTest
  rw [hrej]

/-- C1 on the example host: the script `sudo reboot` is rejected and nothing
is executed. -/
theorem rejected_script_not_executed_witness :
    (demoHost catProc).ValidateScript (lit "sudo reboot") = some (lit "sudo is not allowed") ∧
    ExecuteTest (demoHost catProc) demoExecutor demoInit () (lit "sudo reboot") demoTest =
      ⟨demoInit, [], [],
        some (lit "script validation failed: " ++ lit "sudo is not allowed")⟩ :=
  ⟨by decide, rejected_script_not_executed _ _ _ _ _ _ _ (by decide)⟩

/-- C2: when a setup command run by `ExecuteTest` exits non-zero (its
`CombinedOutput` returns an error), the output is empty, the error is "setup
command failed: " wrapping the error of `runCommand`, no `cmd.Start` is ever
issued, and the failing command is the last setup command run: the setup
commands run are the first `k + 1` entries of `test.Setup`, in order, of which
the first `k` succeeded. -/
theorem setup_failure_aborts (h : Host σ κ) (e : Executor) (s : σ) (ctx : κ)
    (script : Str) (test : Test) (c : Cmd) (output err : Str)
    (hfail : Event.combinedOutput c output (some err) ∈
      (ExecuteTest h e s ctx script test).trace) :
    h.ValidateScript script = none ∧
    (ExecuteTest h e s ctx script test).output = [] ∧
    (ExecuteTest h e s ctx script test).err =
      some (lit "setup command failed: " ++
        (lit "command failed: " ++ err ++ lit "\noutput: " ++ output)) ∧
    (∀ c' res, Event.start c' res ∉ (ExecuteTest h e s ctx script test).trace) ∧
    ∃ pre dir,
      Event.prepare e.workDir (Res.ok dir) ∈ (ExecuteTest h e s ctx script test).trace ∧
      setupEvents (ExecuteTest h e s ctx script test).trace =
        pre ++ [Event.combinedOutput c output (some err)] ∧
      (∀ ev ∈ pre, ev.setupErr = none) ∧
      pre.length < test.Setup.length ∧
      List.Forall₂ (IsSetupRun h e dir test.Environment) (test.Setup.take (pre.length + 1))
        (setupEvents (ExecuteTest h e s ctx script test).trace) := by
  rcases ExecuteTest_shape h e s ctx script test with
    ⟨reason, -, hrun⟩ | ⟨hacc, ⟨s1, m, -, hrun⟩ | ⟨s1, dir, sb, body, -, -, htr, hbody⟩⟩
  · rw [hrun] at hfail
    simp at hfail
  · rw [hrun] at hfail
    simp at hfail
  · rw [htr] at hfail
    rcases hbody with ⟨m, rfl, -, -⟩ | ⟨pre, c', o, m, rfl, hlen, hall, hpre, hout, herr⟩ |
      ⟨evs, rs, rfl, hall, hok, hs⟩
    · simp at hfail
    · have hnot := not_mem_of_setupErr_none hpre c output err
      simp [hnot] at hfail
      obtain ⟨rfl, rfl, rfl⟩ := hfail
      have hset : setupEvents (ExecuteTest h e s ctx script test).trace =
          pre ++ [Event.combinedOutput c output (some err)] := by
        rw [htr]
        exact @setupEvents_frame _ _ _ [Event.removeAll dir] rfl rfl
          (forall₂_isSetup hall) rfl
      refine ⟨hacc, hout, herr, ?_, pre, dir, by rw [htr]; simp, hset, hpre, hlen,
        by rw [hset]; exact hall⟩
      intro c2 res hmem
      rw [htr] at hmem
      simp at hmem
      have := setupRun_not_start hall (Event.start c2 res) (by simp [hmem])
      simp [Event.isStart] at this
    · exfalso
      have h1 := not_mem_of_setupErr_none hok c output err
      have h3 := not_mem_of_setupEvents_nil (scriptShape_setupEvents hs) c output (some err)
      simp [h1, h3] at hfail

/-- C2 on the example host: the setup command `false` fails and the run
returns the setup error. -/
theorem setup_failure_aborts_witness :
    Event.combinedOutput
      ⟨lit "/bin/sh", [lit "-c", lit "false"], lit "/w/script-", [lit "FOO=ambient"]⟩
      [] (some (lit "exit status 1")) ∈
      (ExecuteTest (demoHost catProc) demoExecutor demoInit () (lit "cat")
        failingSetupTest).trace ∧
    (ExecuteTest (demoHost catProc) demoExecutor demoInit () (lit "cat") failingSetupTest).err =
      some (lit "setup command failed: " ++
        (lit "command failed: " ++ lit "exit status 1" ++ lit "\noutput: " ++ [])) :=
  ⟨by decide,
    (setup_failure_aborts (demoHost catProc) demoExecutor demoInit () (lit "cat")
      failingSetupTest
      ⟨lit "/bin/sh", [lit "-c", lit "false"], lit "/w/script-", [lit "FOO=ambient"]⟩
      [] (lit "exit status 1") (by decide)).2.2.1⟩

/-- The setup commands a run of `ExecuteTest` issues are, one event per
command and in order, the first `n` entries of `test.Setup` for some `n`, each
run by the shell in the isolated directory with the environment `buildEnv`
makes of `test.Environment`; and wherever a `cmd.Start` occurs in the trace, it
is the start of the script file of that directory, every entry of `test.Setup`
has run before it, each with success, and no setup command runs after it. -/
theorem setup_trace_order (h : Host σ κ) (e : Executor) (s : σ) (ctx : κ)
    (script : Str) (test : Test) :
    (∃ n dir, n ≤ test.Setup.length ∧
      List.Forall₂ (IsSetupRun h e dir test.Environment) (test.Setup.take n)
        (setupEvents (ExecuteTest h e s ctx script test).trace) ∧
      (setupEvents (ExecuteTest h e s ctx script test).trace ≠ [] →
        Event.prepare e.workDir (Res.ok dir) ∈ (ExecuteTest h e s ctx script test).trace)) ∧
    (∀ pre c res post,
      (ExecuteTest h e s ctx script test).trace = pre ++ Event.start c res :: post →
      ∃ dir, Event.prepare e.workDir (Res.ok dir) ∈ pre ∧
        IsScriptCmd h e dir (h.Join dir (lit "script.sh")) test c ∧
        List.Forall₂ (IsSetupRun h e dir test.Environment) test.Setup (setupEvents pre) ∧
        (∀ ev ∈ setupEvents pre, ev.setupErr = none) ∧
        setupEvents post = []) := by
  rcases ExecuteTest_shape h e s ctx script test with
    ⟨reason, -, hrun⟩ | ⟨hacc, ⟨s1, m, -, hrun⟩ | ⟨s1, dir, sb, body, -, -, htr, hbody⟩⟩
  · rw [hrun]
    refine ⟨⟨0, [], by simp, by simp [setupEvents], by simp [setupEvents]⟩, ?_⟩
    intro pre c res post heq
    simp at heq
  · rw [hrun]
    refine ⟨⟨0, [], by simp, by simp [setupEvents, Event.isSetup],
      by simp [setupEvents, Event.isSetup]⟩, ?_⟩
    intro pre c res post heq
    have : Event.start c res ∈ [Event.prepare e.workDir (Res.error m)] := by
      simp only at heq
      rw [heq]; simp
    simp at this
  · rcases hbody with ⟨m, rfl, -, -⟩ | ⟨evs0, c', o, m, rfl, hlen, hall, hpre, hout, herr⟩ |
      ⟨evs, rs, rfl, hall, hok, hs⟩
    · rw [htr]
      refine ⟨⟨0, dir, by simp, by simp [setupEvents, Event.isSetup],
        by simp [setupEvents, Event.isSetup]⟩, ?_⟩
      intro pre c res post heq
      have : Event.start c res ∈ Event.prepare e.workDir (Res.ok dir) ::
          [Event.writeFile (h.Join dir (lit "script.sh")) script scriptFileMode (some m)] ++
          [Event.removeAll dir] := by
        rw [heq]; simp
      simp at this
    · have hset : setupEvents (ExecuteTest h e s ctx script test).trace =
          evs0 ++ [Event.combinedOutput c' o (some m)] := by
        rw [htr]
        exact @setupEvents_frame _ _ _ [Event.removeAll dir] rfl rfl
          (forall₂_isSetup hall) rfl
      refine ⟨⟨evs0.length + 1, dir, by omega, by rw [hset]; exact hall, ?_⟩, ?_⟩
      · intro _
        rw [htr]
        simp
      · intro pre c res post heq
        exfalso
        have hmem : Event.start c res ∈ (ExecuteTest h e s ctx script test).trace := by
          rw [heq]; simp
        rw [htr] at hmem
        simp at hmem
        have := setupRun_not_start hall (Event.start c res) (by simp [hmem])
        simp [Event.isStart] at this
    · have hsnil := scriptShape_setupEvents hs
      have htail : setupEvents (rs ++ [Event.removeAll dir]) = [] := by
        rw [setupEvents_append, hsnil]; rfl
      have htr' : (ExecuteTest h e s ctx script test).trace =
          Event.prepare e.workDir (Res.ok dir) ::
          Event.writeFile (h.Join dir (lit "script.sh")) script scriptFileMode none ::
          (evs ++ (rs ++ [Event.removeAll dir])) := by
        rw [htr]; simp
      have hset : setupEvents (ExecuteTest h e s ctx script test).trace = evs := by
        rw [htr']
        exact setupEvents_frame rfl rfl (forall₂_isSetup hall) htail
      refine ⟨⟨test.Setup.length, dir, le_refl _, ?_, ?_⟩, ?_⟩
      · rw [hset, List.take_length]; exact hall
      · intro _
        rw [htr]
        simp
      · intro pre c res post heq
        obtain ⟨cmd, hcmd, ⟨m, rfl, -, -⟩ | ⟨sw, cl, rfl, hw⟩⟩ := hs
        · exfalso
          have hmem : Event.start c res ∈ (ExecuteTest h e s ctx script test).trace := by
            rw [heq]; simp
          rw [htr'] at hmem
          simp at hmem
          have := setupRun_not_start hall (Event.start c res) hmem
          simp [Event.isStart] at this
        · obtain ⟨res', rest, rfl, hrest⟩ := waitShape_start hw
          have hsplit : (Event.prepare e.workDir (Res.ok dir) ::
              Event.writeFile (h.Join dir (lit "script.sh")) script scriptFileMode none ::
              (evs ++ [Event.stdinPipe cmd none])) ++ Event.start cmd res' ::
              (rest ++ [Event.stdinClose cl, Event.removeAll dir]) =
              pre ++ Event.start c res :: post := by
            rw [← heq, htr']; simp
          have ha : ∀ ev ∈ Event.prepare e.workDir (Res.ok dir) ::
              Event.writeFile (h.Join dir (lit "script.sh")) script scriptFileMode none ::
              (evs ++ [Event.stdinPipe cmd none]), ev.isStart = false := by
            intro ev hev
            simp at hev
            rcases hev with rfl | rfl | hev | rfl
            · rfl
            · rfl
            · exact setupRun_not_start hall ev hev
            · rfl
          have hb : ∀ ev ∈ rest ++ [Event.stdinClose cl, Event.removeAll dir],
              ev.isStart = false := by
            intro ev hev
            simp at hev
            rcases hev with hev | rfl | rfl
            · exact hrest ev hev
            · rfl
            · rfl
          obtain ⟨hpre, hc, hpost⟩ := split_unique ha hb (by rfl) hsplit
          simp only [Event.start.injEq] at hc
          obtain ⟨rfl, rfl⟩ := hc
          subst hpre hpost
          refine ⟨dir, by simp, hcmd, ?_, ?_, ?_⟩
          · have : setupEvents (Event.prepare e.workDir (Res.ok dir) ::
                Event.writeFile (h.Join dir (lit "script.sh")) script scriptFileMode none ::
                (evs ++ [Event.stdinPipe c none])) = evs :=
              setupEvents_frame rfl rfl (forall₂_isSetup hall) rfl
            rw [this]; exact hall
          · have : setupEvents (Event.prepare e.workDir (Res.ok dir) ::
                Event.writeFile (h.Join dir (lit "script.sh")) script scriptFileMode none ::
                (evs ++ [Event.stdinPipe c none])) = evs :=
              setupEvents_frame rfl rfl (forall₂_isSetup hall) rfl
            rw [this]; exact hok
          · have h1 := waitShape_setupEvents hw
            have h2 : setupEvents (Event.start c res :: rest) = setupEvents rest := rfl
            rw [h2] at h1
            rw [setupEvents_append, h1]; rfl

/-- The setup of an accepted script whose directory is provisioned and whose
file is written runs sequentially from the state the write left: the setup
events of the trace are the first `n` events of the chain, of which all but
the last succeeded; and a start of a process occurs only after the whole
chain ran with success, for the script command built in the last state of
the chain, in the state the pipe left there. -/
theorem setup_sequential (h : Host σ κ) (e : Executor) (s s1 s2 : σ) (ctx : κ)
    (script : Str) (test : Test) (dir : Str)
    (hacc : h.ValidateScript script = none)
    (hprep : h.PrepareScriptEnvironment s e.workDir = (s1, Res.ok dir))
    (hwrite : h.WriteFile s1 (h.Join dir (lit "script.sh")) script scriptFileMode =
      (s2, none)) :
    ∃ n, n ≤ test.Setup.length ∧
      setupEvents (ExecuteTest h e s ctx script test).trace =
        ((setupChain h e ctx dir test.Environment s2 test.Setup).take n).map Prod.fst ∧
      (∀ p ∈ (setupChain h e ctx dir test.Environment s2 test.Setup).take (n - 1),
        p.1.setupErr = none) ∧
      (∀ pre c res post,
        (ExecuteTest h e s ctx script test).trace = pre ++ Event.start c res :: post →
        n = test.Setup.length ∧
        (∀ p ∈ setupChain h e ctx dir test.Environment s2 test.Setup, p.1.setupErr = none) ∧
        c = scriptCmd h e dir (h.Join dir (lit "script.sh")) test
          (setupEnd h e ctx dir test.Environment s2 test.Setup) ∧
        (h.StdinPipe (setupEnd h e ctx dir test.Environment s2 test.Setup) c).2 = none ∧
        res = (h.Start
          (h.StdinPipe (setupEnd h e ctx dir test.Environment s2 test.Setup) c).1 ctx c).2)
    := by
  have hlen := setupChain_length h e ctx dir test.Environment test.Setup s2
  have hsetup := setupChain_isSetup h e ctx dir test.Environment test.Setup s2
  rcases runSetup_chain h e ctx dir test.Environment test.Setup s2 with
    ⟨hok, heq⟩ | ⟨pre0, c0, o0, m0, post0, sF, hch, hpre0, heq⟩
  · -- the whole setup succeeds
    have hrun := ExecuteTest_setup_ok h e s s1 s2 _ ctx script test dir _ hacc hprep hwrite heq
    have hshape := runScript_shape h e (setupEnd h e ctx dir test.Environment s2 test.Setup)
      ctx dir (h.Join dir (lit "script.sh")) test
    have htail : setupEvents
        ((runScript h e (setupEnd h e ctx dir test.Environment s2 test.Setup) ctx dir
          (h.Join dir (lit "script.sh")) test).trace ++ [Event.removeAll dir]) = [] := by
      rw [setupEvents_append, scriptShape_setupEvents hshape]; rfl
    have htr : (ExecuteTest h e s ctx script test).trace =
        Event.prepare e.workDir (Res.ok dir) ::
        Event.writeFile (h.Join dir (lit "script.sh")) script scriptFileMode none ::
        ((setupChain h e ctx dir test.Environment s2 test.Setup).map Prod.fst ++
          ((runScript h e (setupEnd h e ctx dir test.Environment s2 test.Setup) ctx dir
            (h.Join dir (lit "script.sh")) test).trace ++ [Event.removeAll dir])) := by
      rw [hrun]; simp
    refine ⟨test.Setup.length, le_refl _, ?_, ?_, ?_⟩
    · rw [htr, setupEvents_run _ _ _ _ _ hsetup htail, ← hlen, List.take_length]
    · intro p hp
      exact hok p (List.mem_of_mem_take hp)
    · intro pre c res post hsplit
      refine ⟨rfl, hok, ?_⟩
      cases hp : h.StdinPipe (setupEnd h e ctx dir test.Environment s2 test.Setup)
          (scriptCmd h e dir (h.Join dir (lit "script.sh")) test
            (setupEnd h e ctx dir test.Environment s2 test.Setup)) with
      | mk s4 perr =>
        cases perr with
        | some m =>
          exfalso
          have hmem : Event.start c res ∈ (ExecuteTest h e s ctx script test).trace := by
            rw [hsplit]; simp
          rw [htr, runScript_no_pipe h e _ s4 ctx dir _ test m hp] at hmem
          have hnot : Event.start c res ∉
              (setupChain h e ctx dir test.Environment s2 test.Setup).map Prod.fst :=
            not_mem_of_all_isSetup hsetup rfl
          simp [hnot] at hmem
        | none =>
          obtain ⟨rest, hsw, hrest⟩ := startAndWait_start h s4 ctx
            (scriptCmd h e dir (h.Join dir (lit "script.sh")) test
              (setupEnd h e ctx dir test.Environment s2 test.Setup)) test
          have hA : (Event.prepare e.workDir (Res.ok dir) ::
              Event.writeFile (h.Join dir (lit "script.sh")) script scriptFileMode none ::
              ((setupChain h e ctx dir test.Environment s2 test.Setup).map Prod.fst ++
                [Event.stdinPipe (scriptCmd h e dir (h.Join dir (lit "script.sh")) test
                  (setupEnd h e ctx dir test.Environment s2 test.Setup)) none])) ++
              Event.start (scriptCmd h e dir (h.Join dir (lit "script.sh")) test
                  (setupEnd h e ctx dir test.Environment s2 test.Setup))
                (h.Start s4 ctx (scriptCmd h e dir (h.Join dir (lit "script.sh")) test
                  (setupEnd h e ctx dir test.Environment s2 test.Setup))).2 ::
              (rest ++ [Event.stdinClose (h.StdinClose (startAndWait h s4 ctx
                  (scriptCmd h e dir (h.Join dir (lit "script.sh")) test
                    (setupEnd h e ctx dir test.Environment s2 test.Setup)) test).state).2,
                Event.removeAll dir]) = pre ++ Event.start c res :: post := by
            rw [← hsplit, htr, runScript_piped h e _ s4 ctx dir _ test hp, hsw]
            simp
          have ha : ∀ ev ∈ Event.prepare e.workDir (Res.ok dir) ::
              Event.writeFile (h.Join dir (lit "script.sh")) script scriptFileMode none ::
              ((setupChain h e ctx dir test.Environment s2 test.Setup).map Prod.fst ++
                [Event.stdinPipe (scriptCmd h e dir (h.Join dir (lit "script.sh")) test
                  (setupEnd h e ctx dir test.Environment s2 test.Setup)) none]),
              ev.isStart = false := by
            intro ev hev
            simp only [List.mem_cons, List.mem_append, List.not_mem_nil, or_false] at hev
            rcases hev with rfl | rfl | hev | rfl
            · rfl
            · rfl
            · have := hsetup ev hev
              cases ev <;> simp [Event.isSetup] at this
              rfl
            · rfl
          have hb : ∀ ev ∈ rest ++ [Event.stdinClose (h.StdinClose (startAndWait h s4 ctx
                  (scriptCmd h e dir (h.Join dir (lit "script.sh")) test
                    (setupEnd h e ctx dir test.Environment s2 test.Setup)) test).state).2,
                Event.removeAll dir], ev.isStart = false := by
            intro ev hev
            simp only [List.mem_cons, List.mem_append, List.not_mem_nil, or_false] at hev
            rcases hev with hev | rfl | rfl
            · exact hrest ev hev
            · rfl
            · rfl
          obtain ⟨-, hc, -⟩ := split_unique ha hb (by rfl) hA
          simp only [Event.start.injEq] at hc
          obtain ⟨rfl, rfl⟩ := hc
          rw [hp]
          exact ⟨rfl, rfl, rfl⟩
  · -- a setup command fails
    have hrun := ExecuteTest_setup_fail h e s s1 s2 sF ctx script test dir _ _ hacc hprep
      hwrite heq
    have hmapmem : ∀ ev ∈ pre0 ++ [Event.combinedOutput c0 o0 (some m0)],
        ev.isSetup = true := by
      intro ev hev
      apply hsetup
      rw [hch]
      simp only [List.mem_append, List.mem_cons, List.not_mem_nil, or_false] at hev ⊢
      rcases hev with hev | hev
      · exact Or.inl hev
      · exact Or.inr (Or.inl hev)
    have htr : (ExecuteTest h e s ctx script test).trace =
        Event.prepare e.workDir (Res.ok dir) ::
        Event.writeFile (h.Join dir (lit "script.sh")) script scriptFileMode none ::
        ((pre0 ++ [Event.combinedOutput c0 o0 (some m0)]) ++ [Event.removeAll dir]) := by
      rw [hrun]; rfl
    have hlen' : pre0.length + 1 + post0.length = test.Setup.length := by
      have := congrArg List.length hch
      simp only [List.length_map, List.length_append, List.length_cons] at this
      omega
    refine ⟨pre0.length + 1, by omega, ?_, ?_, ?_⟩
    · have hnil : setupEvents [Event.removeAll dir] = [] := rfl
      rw [htr, setupEvents_run _ _ _ _ _ hmapmem hnil, List.map_take, hch,
        take_succ_append_cons]
    · intro p hp
      simp only [Nat.add_sub_cancel] at hp
      have hmem : p.1 ∈ ((setupChain h e ctx dir test.Environment s2 test.Setup).map
          Prod.fst).take pre0.length := by
        rw [← List.map_take]
        exact List.mem_map_of_mem _ hp
      rw [hch, List.take_left] at hmem
      exact hpre0 _ hmem
    · intro pre c res post hsplit
      exfalso
      have hmem : Event.start c res ∈ (ExecuteTest h e s ctx script test).trace := by
        rw [hsplit]; simp
      rw [htr] at hmem
      have hnot : Event.start c res ∉ pre0 ++ [Event.combinedOutput c0 o0 (some m0)] :=
        not_mem_of_all_isSetup hmapmem rfl
      simp only [List.mem_append, List.mem_cons, List.not_mem_nil, or_false, reduceCtorEq,
        false_or] at hmem hnot
      exact hnot hmem

/-- C3: the setup commands a run of `ExecuteTest` issues are, one event per
command and in order, the first `n` entries of `test.Setup` for some `n`, each
run by the shell in the isolated directory with the environment `buildEnv`
makes of `test.Environment`; wherever a `cmd.Start` occurs in the trace, it is
the start of the script file of that directory, every entry of `test.Setup`
has run before it, each with success, and no setup command runs after it; and
the commands run strictly one after the other: from the state the script
write left, each command runs in the state the command before it left (the
setup events are the first `n` events of `setupChain`, all but the last of
them successful), and the script is started only after the whole chain ran
with success, with the command built in the last state of the chain and in the
state the pipe left there. -/
theorem setup_runs_in_order (h : Host σ κ) (e : Executor) (s : σ) (ctx : κ)
    (script : Str) (test : Test) :
    (∃ n dir, n ≤ test.Setup.length ∧
      List.Forall₂ (IsSetupRun h e dir test.Environment) (test.Setup.take n)
        (setupEvents (ExecuteTest h e s ctx script test).trace) ∧
      (setupEvents (ExecuteTest h e s ctx script test).trace ≠ [] →
        Event.prepare e.workDir (Res.ok dir) ∈ (ExecuteTest h e s ctx script test).trace)) ∧
    (∀ pre c res post,
      (ExecuteTest h e s ctx script test).trace = pre ++ Event.start c res :: post →
      ∃ dir, Event.prepare e.workDir (Res.ok dir) ∈ pre ∧
        IsScriptCmd h e dir (h.Join dir (lit "script.sh")) test c ∧
        List.Forall₂ (IsSetupRun h e dir test.Environment) test.Setup (setupEvents pre) ∧
        (∀ ev ∈ setupEvents pre, ev.setupErr = none) ∧
        setupEvents post = []) ∧
    (∀ s1 dir s2, h.ValidateScript script = none →
      h.PrepareScriptEnvironment s e.workDir = (s1, Res.ok dir) →
      h.WriteFile s1 (h.Join dir (lit "script.sh")) script scriptFileMode = (s2, none) →
      ∃ n, n ≤ test.Setup.length ∧
        setupEvents (ExecuteTest h e s ctx script test).trace =
          ((setupChain h e ctx dir test.Environment s2 test.Setup).take n).map Prod.fst ∧
        (∀ p ∈ (setupChain h e ctx dir test.Environment s2 test.Setup).take (n - 1),
          p.1.setupErr = none) ∧
        (∀ pre c res post,
          (ExecuteTest h e s ctx script test).trace = pre ++ Event.start c res :: post →
          n = test.Setup.length ∧
          (∀ p ∈ setupChain h e ctx dir test.Environment s2 test.Setup,
            p.1.setupErr = none) ∧
          c = scriptCmd h e dir (h.Join dir (lit "script.sh")) test
            (setupEnd h e ctx dir test.Environment s2 test.Setup) ∧
          (h.StdinPipe (setupEnd h e ctx dir test.Environment s2 test.Setup) c).2 = none ∧
          res = (h.Start
            (h.StdinPipe (setupEnd h e ctx dir test.Environment s2 test.Setup) c).1
            ctx c).2)) :=
  ⟨(setup_trace_order h e s ctx script test).1, (setup_trace_order h e s ctx script test).2,
    fun s1 dir s2 hacc hprep hwrite =>
      setup_sequential h e s s1 s2 ctx script test dir hacc hprep hwrite⟩

/-- C3 on the example run: the second setup command printed what the first
one had left in the journal, the script was started after both, in the state
they left, and that state holds both commands in order. -/
theorem setup_runs_in_order_witness :
    (ExecuteTest (demoHost catProc) demoExecutor demoInit () (lit "cat") demoTest).trace =
      demoBefore ++ Event.start demoScriptCmd (Started.ok 7) :: demoAfter ∧
    setupEnd (demoHost catProc) demoExecutor () (lit "/w/script-") demoTest.Environment
      demoWritten demoTest.Setup = demoSetUp ∧
    (setupChain (demoHost catProc) demoExecutor () (lit "/w/script-") demoTest.Environment
      demoWritten demoTest.Setup).map Prod.fst = demoSetupEvents ∧
    ∃ n, n ≤ demoTest.Setup.length ∧
      setupEvents (ExecuteTest (demoHost catProc) demoExecutor demoInit () (lit "cat")
        demoTest).trace =
        ((setupChain (demoHost catProc) demoExecutor () (lit "/w/script-")
          demoTest.Environment demoWritten demoTest.Setup).take n).map Prod.fst ∧
      n = demoTest.Setup.length ∧
      demoScriptCmd = scriptCmd (demoHost catProc) demoExecutor (lit "/w/script-")
        ((demoHost catProc).Join (lit "/w/script-") (lit "script.sh")) demoTest
        (setupEnd (demoHost catProc) demoExecutor () (lit "/w/script-")
          demoTest.Environment demoWritten demoTest.Setup) := by
  refine ⟨by decide, by decide, by decide, ?_⟩
  obtain ⟨n, hn, hev, -, hstart⟩ :=
    (setup_runs_in_order (demoHost catProc) demoExecutor demoInit () (lit "cat")
      demoTest).2.2 demoWritten (lit "/w/script-") demoWritten (by decide) (by decide)
      (by decide)
  obtain ⟨hlen, -, hc, -, -⟩ :=
    hstart demoBefore demoScriptCmd (Started.ok 7) demoAfter (by decide)
  exact ⟨n, hn, hev, hlen, hc⟩

/-! ## The environment overlay (C4) -/

/-- C4 (as amended): `buildEnv` returns the ambient entries, unchanged and in
order, followed by one `key=value` entry per pair in the order of iteration;
and for every iteration order of a mapping with distinct keys, a non-empty
key `k` of the mapping that holds no `=` and that no key of the mapping
extends by `=` and more resolves, under the last-entry-wins lookup, to the
test's value for `k`, whatever the ambient entries are. -/
theorem buildEnv_overlay (environ : List Str) (m iter : List (Str × Str)) (k v : Str)
    (hperm : iter.Perm m) (hnodup : (m.map Prod.fst).Nodup) (hkv : (k, v) ∈ m)
    (hne : k ≠ []) (hk : '=' ∉ k) (hext : ∀ p ∈ m, ¬ (k ++ ['=']) <+: p.1) :
    buildEnv environ iter = environ ++ iter.map (fun kv => kv.1 ++ '=' :: kv.2) ∧
    lookupEnv (buildEnv environ iter) k = some v := by
  refine ⟨buildEnv_eq environ iter, ?_⟩
  rw [buildEnv_eq]
  unfold lookupEnv
  rw [if_neg hne, List.reverse_append, List.find?_append]
  have hfind : List.find? (fun kv => decide ('=' ∈ kv) && decide (entryName kv = k))
      (iter.map (fun kv => kv.1 ++ '=' :: kv.2)).reverse = some (k ++ '=' :: v) := by
    apply find?_unique
    · rw [List.mem_reverse, List.mem_map]
      exact ⟨(k, v), hperm.mem_iff.mpr hkv, rfl⟩
    · simp [entryName_entry k v hk]
    · intro y hy hpy
      rw [List.mem_reverse, List.mem_map] at hy
      obtain ⟨⟨k', v'⟩, hmem, rfl⟩ := hy
      have hmem' : (k', v') ∈ m := hperm.mem_iff.mp hmem
      simp only [Bool.and_eq_true, decide_eq_true_eq] at hpy
      rcases key_of_entryName k k' v' hpy.2 with hkk | hpre
      · subst hkk
        have := List.inj_on_of_nodup_map hnodup hmem' hkv rfl
        simp only [Prod.mk.injEq, true_and] at this
        rw [this]
      · exact absurd hpre (hext _ hmem')
  rw [hfind]
  simp [entryValue_entry k v hk]

/-- C4 (as amended) on the example of the specification: the ambient
`FOO=ambient` is overridden by the test's `FOO`. -/
theorem buildEnv_overlay_witness :
    buildEnv [lit "FOO=ambient", lit "BAR=1"]
        [(lit "BAZ", lit "2"), (lit "FOO", lit "override")] =
      [lit "FOO=ambient", lit "BAR=1"] ++
        [(lit "BAZ", lit "2"), (lit "FOO", lit "override")].map
          (fun kv => kv.1 ++ '=' :: kv.2) ∧
    lookupEnv (buildEnv [lit "FOO=ambient", lit "BAR=1"]
      [(lit "BAZ", lit "2"), (lit "FOO", lit "override")]) (lit "FOO") = some (lit "override") :=
  (buildEnv_overlay [lit "FOO=ambient", lit "BAR=1"]
    [(lit "FOO", lit "override"), (lit "BAZ", lit "2")]
    [(lit "BAZ", lit "2"), (lit "FOO", lit "override")] (lit "FOO") (lit "override")
    (by decide) (by decide) (by decide) (by decide) (by decide) (by decide))

/-- C4 (as stated) fails: for the mapping with keys `A` and `A=`, which are
distinct, iterated in that order, the key `A` resolves to `=2` and not to its
value `1`; iterated in the other order, the key `A=` resolves to nothing; and
the empty key of a one-pair mapping resolves to nothing. -/
theorem buildEnv_key_with_equals_sign :
    ([(lit "A", lit "1"), (lit "A=", lit "2")].map Prod.fst).Nodup ∧
    lookupEnv (buildEnv [lit "FOO=ambient"] [(lit "A", lit "1"), (lit "A=", lit "2")])
      (lit "A") = some (lit "=2") ∧
    lookupEnv (buildEnv [lit "FOO=ambient"] [(lit "A", lit "1"), (lit "A=", lit "2")])
      (lit "A") ≠ some (lit "1") ∧
    lookupEnv (buildEnv [lit "FOO=ambient"] [(lit "A=", lit "2"), (lit "A", lit "1")])
      (lit "A=") = none ∧
    lookupEnv (buildEnv [lit "FOO=ambient"] [([], lit "x")]) [] = none := by
  decide

/-! ## Release of the isolated directory (C5) -/

/-- C5 (as amended): when the validator rejects the script, `ExecuteTest`
issues no effect (no directory is created) and leaves the host state
untouched; when `PrepareScriptEnvironment` fails, the call does nothing beyond
that attempt; and whenever the script is accepted and
`PrepareScriptEnvironment` returns a directory, the trace is the provisioning,
then events none of which provisions or removes a directory, then `RemoveAll`
of that directory as the very last effect, the state the call returns in is
the one that removal produced, and the directory does not exist in it provided
the removal left the path absent. -/
theorem isolated_dir_released (h : Host σ κ) (e : Executor) (s : σ) (ctx : κ)
    (script : Str) (test : Test) :
    (∀ reason, h.ValidateScript script = some reason →
      (ExecuteTest h e s ctx script test).trace = [] ∧
      (ExecuteTest h e s ctx script test).state = s) ∧
    (∀ s1 m, h.ValidateScript script = none →
      h.PrepareScriptEnvironment s e.workDir = (s1, Res.error m) →
      (ExecuteTest h e s ctx script test).trace = [Event.prepare e.workDir (Res.error m)] ∧
      (ExecuteTest h e s ctx script test).state = s1) ∧
    (∀ s1 dir, h.ValidateScript script = none →
      h.PrepareScriptEnvironment s e.workDir = (s1, Res.ok dir) →
      ∃ body sb,
        (ExecuteTest h e s ctx script test).trace =
          Event.prepare e.workDir (Res.ok dir) :: body ++ [Event.removeAll dir] ∧
        (∀ ev ∈ body, (∀ w res, ev ≠ Event.prepare w res) ∧ ∀ p, ev ≠ Event.removeAll p) ∧
        (ExecuteTest h e s ctx script test).trace.getLast? = some (Event.removeAll dir) ∧
        (ExecuteTest h e s ctx script test).state = h.RemoveAll sb dir ∧
        (h.dirExists (h.RemoveAll sb dir) dir = false →
          h.dirExists (ExecuteTest h e s ctx script test).state dir = false)) := by
  refine ⟨?_, ?_, ?_⟩
  · intro reason hrej
    unfold ExecuteTest
    rw [hrej]
    exact ⟨rfl, rfl⟩
  · intro s1 m hacc hprep
    unfold ExecuteTest
    rw [hacc]
    simp [hprep]
  · intro s1 dir hacc hprep
    rcases ExecuteTest_shape h e s ctx script test with
      ⟨reason, hrej, -⟩ | ⟨-, ⟨s1', m, hprep', -⟩ | ⟨s1', dir', sb, body, hprep', hst, htr, hbody⟩⟩
    · rw [hacc] at hrej
      cases hrej
    · rw [hprep] at hprep'
      simp at hprep'
    · rw [hprep] at hprep'
      simp only [Prod.mk.injEq, Res.ok.injEq] at hprep'
      obtain ⟨rfl, rfl⟩ := hprep'
      obtain ⟨w, rest, rfl, hrest⟩ := bodyShape_write hbody
      refine ⟨_, sb, htr, ?_, ?_, hst, ?_⟩
      · intro ev hev
        simp only [List.mem_cons] at hev
        rcases hev with rfl | hev
        · constructor
          · intro w' res hne
            cases hne
          · intro p hne
            cases hne
        · have := hrest ev hev
          constructor
          · intro w' res hne
            rw [hne] at this
            cases this
          · intro p hne
            rw [hne] at this
            cases this
      · rw [htr]
        exact List.getLast?_concat _
      · intro hgone
        rw [hst]
        exact hgone

/-- C5 (as amended) on the example host, on the timeout path: the removal of
the directory is the last effect and, the removal having worked, the directory
is gone. -/
theorem isolated_dir_released_witness :
    (ExecuteTest (demoHost hangProc) demoExecutor demoInit () (lit "sleep 100")
      demoTest).trace.getLast? = some (Event.removeAll (lit "/w/script-")) ∧
    (demoHost hangProc).dirExists
      (ExecuteTest (demoHost hangProc) demoExecutor demoInit () (lit "sleep 100")
        demoTest).state (lit "/w/script-") = false := by
  obtain ⟨body, sb, -, -, hlast, -, hgone⟩ :=
    (isolated_dir_released (demoHost hangProc) demoExecutor demoInit () (lit "sleep 100")
      demoTest).2.2 demoWritten (lit "/w/script-") (by decide) (by decide)
  exact ⟨hlast, hgone (demoHost_removeAll hangProc sb (lit "/w/script-"))⟩

/-- C5 (as stated) fails: on a host whose removal fails, the script is
accepted, the directory provisioned, the script succeeds, the removal is
issued last, and the directory still exists when the call returns. -/
theorem isolated_dir_survives_failed_removal :
    (stuckHost catProc).ValidateScript (lit "cat") = none ∧
    (stuckHost catProc).PrepareScriptEnvironment demoInit demoExecutor.workDir =
      (demoWritten, Res.ok (lit "/w/script-")) ∧
    (ExecuteTest (stuckHost catProc) demoExecutor demoInit () (lit "cat")
      demoTest).trace.getLast? = some (Event.removeAll (lit "/w/script-")) ∧
    (ExecuteTest (stuckHost catProc) demoExecutor demoInit () (lit "cat") demoTest).err =
      none ∧
    (stuckHost catProc).dirExists
      (ExecuteTest (stuckHost catProc) demoExecutor demoInit () (lit "cat") demoTest).state
      (lit "/w/script-") = true := by
  decide

/-! ## Outcomes of the script (C6, C7, C8) -/

/-- C7 (as amended): when the script is accepted, the directory provisioned,
the script written, every setup command succeeds, the pipe is created, the
process started, `test.Input` written and standard input closed, all without
error, and the `select` then takes the case of the context (the deadline
elapsed before the wait on the child returned), `ExecuteTest` applies `Kill`
to the started process at once, then only closes the pipe and removes the
directory, returns the empty output and the error "command timed out", reports
no exit of the child, and that error is not a "command failed: ..." error. -/
theorem timeout_is_reported_as_timeout (h : Host σ κ) (e : Executor)
    (s s1 s2 s3 s4 s5 s6 s7 s8 : σ) (ctx : κ) (script : Str) (test : Test) (dir : Str)
    (pid : Nat)
    (hacc : h.ValidateScript script = none)
    (hprep : h.PrepareScriptEnvironment s e.workDir = (s1, Res.ok dir))
    (hwrite : h.WriteFile s1 (h.Join dir (lit "script.sh")) script scriptFileMode =
      (s2, none))
    (hsetup : ∀ p ∈ setupChain h e ctx dir test.Environment s2 test.Setup,
      p.1.setupErr = none)
    (hend : setupEnd h e ctx dir test.Environment s2 test.Setup = s3)
    (hpipe : h.StdinPipe s3 (scriptCmd h e dir (h.Join dir (lit "script.sh")) test s3) =
      (s4, none))
    (hstart : h.Start s4 ctx (scriptCmd h e dir (h.Join dir (lit "script.sh")) test s3) =
      (s5, Started.ok pid))
    (hin : h.StdinWrite s5 test.Input = (s6, none))
    (hclose : h.StdinClose s6 = (s7, none))
    (hdl : h.Select s7 ctx = (s8, Outcome.ctxDone)) :
    (ExecuteTest h e s ctx script test).output = [] ∧
    (ExecuteTest h e s ctx script test).err = some (lit "command timed out") ∧
    (ExecuteTest h e s ctx script test).state =
      h.RemoveAll (h.StdinClose (h.Kill s8 pid)).1 dir ∧
    (ExecuteTest h e s ctx script test).trace =
      Event.prepare e.workDir (Res.ok dir) ::
      Event.writeFile (h.Join dir (lit "script.sh")) script scriptFileMode none ::
      ((setupChain h e ctx dir test.Environment s2 test.Setup).map Prod.fst ++
        [Event.stdinPipe (scriptCmd h e dir (h.Join dir (lit "script.sh")) test s3) none,
         Event.start (scriptCmd h e dir (h.Join dir (lit "script.sh")) test s3)
           (Started.ok pid),
         Event.stdinWrite test.Input none, Event.stdinClose none,
         Event.ctxDone, Event.kill pid,
         Event.stdinClose (h.StdinClose (h.Kill s8 pid)).2, Event.removeAll dir]) ∧
    (∀ m o eo, Event.waitDone m o eo ∉ (ExecuteTest h e s ctx script test).trace) ∧
    (∀ m o eo, (ExecuteTest h e s ctx script test).err ≠
      some (lit "command failed: " ++ m ++ lit "\nstdout: " ++ o ++ lit "\nstderr: " ++ eo))
    := by
  have hrs := runSetup_of_chain_ok h e ctx dir test.Environment test.Setup s2 hsetup
  rw [hend] at hrs
  have hrun := ExecuteTest_setup_ok h e s s1 s2 s3 ctx script test dir _ hacc hprep hwrite hrs
  rw [runScript_piped h e s3 s4 ctx dir _ test hpipe,
    startAndWait_timeout h s4 s5 s6 s7 s8 ctx _ test pid hstart hin hclose hdl] at hrun
  have htr : (ExecuteTest h e s ctx script test).trace =
      Event.prepare e.workDir (Res.ok dir) ::
      Event.writeFile (h.Join dir (lit "script.sh")) script scriptFileMode none ::
      ((setupChain h e ctx dir test.Environment s2 test.Setup).map Prod.fst ++
        [Event.stdinPipe (scriptCmd h e dir (h.Join dir (lit "script.sh")) test s3) none,
         Event.start (scriptCmd h e dir (h.Join dir (lit "script.sh")) test s3)
           (Started.ok pid),
         Event.stdinWrite test.Input none, Event.stdinClose none,
         Event.ctxDone, Event.kill pid,
         Event.stdinClose (h.StdinClose (h.Kill s8 pid)).2, Event.removeAll dir]) := by
    rw [hrun]; simp
  have herr : (ExecuteTest h e s ctx script test).err = some (lit "command timed out") := by
    rw [hrun]
  refine ⟨by rw [hrun], herr, by rw [hrun], htr, ?_, ?_⟩
  · intro m o eo hin'
    rw [htr] at hin'
    have hnot : Event.waitDone m o eo ∉
        (setupChain h e ctx dir test.Environment s2 test.Setup).map Prod.fst :=
      not_mem_of_all_isSetup (setupChain_isSetup h e ctx dir test.Environment test.Setup s2)
        rfl
    simp [hnot] at hin'
  · intro m o eo heq
    rw [herr] at heq
    simp only [Option.some.injEq, List.append_assoc] at heq
    exact timed_out_ne_failed _ heq

/-- C7 (as amended) on the example host: the child is still running when the
context is done; the process is sent a kill and the timeout error returned. -/
theorem timeout_is_reported_as_timeout_witness :
    (ExecuteTest (demoHost hangProc) demoExecutor demoInit () (lit "sleep 100") demoTest).err =
      some (lit "command timed out") ∧
    (ExecuteTest (demoHost hangProc) demoExecutor demoInit () (lit "sleep 100")
      demoTest).state = ⟨[], lit "hello\n", [lit "echo A >> log", lit "echo B >> log"], [7]⟩
    := by
  obtain ⟨-, herr, hst, -, -, -⟩ :=
    timeout_is_reported_as_timeout (demoHost hangProc) demoExecutor demoInit demoWritten
      demoWritten demoSetUp demoSetUp demoSetUp demoFed demoFed demoFed ()
      (lit "sleep 100") demoTest (lit "/w/script-") 7
      (by decide) (by decide) (by decide) (by decide) (by decide) (by decide) (by decide)
      (by decide) (by decide) (by decide)
  refine ⟨herr, ?_⟩
  rw [hst]
  decide

/-- C7 (as stated) fails: on a host whose child never exits before the context
is done (whenever waited on, the `select` takes the context's case) and does
not read its input, the process is started, the write of the input fails, and
`ExecuteTest` returns the write error, not the timeout error, without sending
a kill; likewise when the close of the pipe fails. -/
theorem timeout_lost_when_input_write_fails :
    (brokenPipeHost hangProc).Select = (fun s _ => (s, Outcome.ctxDone)) ∧
    Event.start demoScriptCmd (Started.ok 7) ∈
      (ExecuteTest (brokenPipeHost hangProc) demoExecutor demoInit () (lit "sleep 100")
        demoTest).trace ∧
    (ExecuteTest (brokenPipeHost hangProc) demoExecutor demoInit () (lit "sleep 100")
      demoTest).err = some (lit "failed to write input: " ++ lit "broken pipe") ∧
    (ExecuteTest (brokenPipeHost hangProc) demoExecutor demoInit () (lit "sleep 100")
      demoTest).err ≠ some (lit "command timed out") ∧
    Event.kill 7 ∉
      (ExecuteTest (brokenPipeHost hangProc) demoExecutor demoInit () (lit "sleep 100")
        demoTest).trace ∧
    (closeFailHost hangProc).Select = (fun s _ => (s, Outcome.ctxDone)) ∧
    Event.start demoScriptCmd (Started.ok 7) ∈
      (ExecuteTest (closeFailHost hangProc) demoExecutor demoInit () (lit "sleep 100")
        demoTest).trace ∧
    (ExecuteTest (closeFailHost hangProc) demoExecutor demoInit () (lit "sleep 100")
      demoTest).err = some (lit "failed to close stdin: " ++ lit "close failed") ∧
    Event.kill 7 ∉
      (ExecuteTest (closeFailHost hangProc) demoExecutor demoInit () (lit "sleep 100")
        demoTest).trace :=
  ⟨rfl, by decide, by decide, by decide, by decide, rfl, by decide, by decide, by decide⟩

/-- C8 (as amended): when the script is accepted, the directory provisioned,
the script written, every setup command succeeds, the pipe is created, the
process started, `test.Input` written and standard input closed, all without
error, and the wait on the child then returns an error (non-zero exit before
the context is done), `ExecuteTest` returns the empty output and the error
"command failed: <err>\nstdout: <stdout>\nstderr: <stderr>", whose text
contains the whole of both builders. -/
theorem nonzero_exit_carries_output (h : Host σ κ) (e : Executor)
    (s s1 s2 s3 s4 s5 s6 s7 s8 : σ) (ctx : κ) (script : Str) (test : Test) (dir : Str)
    (pid : Nat) (m stdout stderr : Str)
    (hacc : h.ValidateScript script = none)
    (hprep : h.PrepareScriptEnvironment s e.workDir = (s1, Res.ok dir))
    (hwrite : h.WriteFile s1 (h.Join dir (lit "script.sh")) script scriptFileMode =
      (s2, none))
    (hsetup : ∀ p ∈ setupChain h e ctx dir test.Environment s2 test.Setup,
      p.1.setupErr = none)
    (hend : setupEnd h e ctx dir test.Environment s2 test.Setup = s3)
    (hpipe : h.StdinPipe s3 (scriptCmd h e dir (h.Join dir (lit "script.sh")) test s3) =
      (s4, none))
    (hstart : h.Start s4 ctx (scriptCmd h e dir (h.Join dir (lit "script.sh")) test s3) =
      (s5, Started.ok pid))
    (hin : h.StdinWrite s5 test.Input = (s6, none))
    (hclose : h.StdinClose s6 = (s7, none))
    (hexit : h.Select s7 ctx = (s8, Outcome.done (some m) stdout stderr)) :
    (ExecuteTest h e s ctx script test).output = [] ∧
    (ExecuteTest h e s ctx script test).state = h.RemoveAll (h.StdinClose s8).1 dir ∧
    Event.waitDone (some m) stdout stderr ∈ (ExecuteTest h e s ctx script test).trace ∧
    ∃ msg, (ExecuteTest h e s ctx script test).err = some msg ∧
      msg = lit "command failed: " ++ m ++ lit "\nstdout: " ++ stdout
        ++ lit "\nstderr: " ++ stderr ∧
      stdout <:+: msg ∧ stderr <:+: msg := by
  have hrs := runSetup_of_chain_ok h e ctx dir test.Environment test.Setup s2 hsetup
  rw [hend] at hrs
  have hrun := ExecuteTest_setup_ok h e s s1 s2 s3 ctx script test dir _ hacc hprep hwrite hrs
  rw [runScript_piped h e s3 s4 ctx dir _ test hpipe,
    startAndWait_failed h s4 s5 s6 s7 s8 ctx _ test pid m stdout stderr hstart hin hclose
      hexit] at hrun
  refine ⟨by rw [hrun], by rw [hrun], by rw [hrun]; simp, _, by rw [hrun], rfl, ?_, ?_⟩
  · exact ⟨lit "command failed: " ++ m ++ lit "\nstdout: ", lit "\nstderr: " ++ stderr,
      by simp [List.append_assoc]⟩
  · exact ⟨lit "command failed: " ++ m ++ lit "\nstdout: " ++ stdout ++ lit "\nstderr: ", [],
      by simp⟩

/-- C8 (as amended) on the example host: a child that exits with status 3
after its input was delivered yields the empty output and an error holding
what it printed to both streams. -/
theorem nonzero_exit_carries_output_witness :
    (ExecuteTest (demoHost failProc) demoExecutor demoInit () (lit "exit 3") demoTest).output
      = [] ∧
    ∃ msg, (ExecuteTest (demoHost failProc) demoExecutor demoInit () (lit "exit 3")
        demoTest).err = some msg ∧
      msg = lit "command failed: " ++ lit "exit status 3" ++ lit "\nstdout: " ++ lit "partial"
        ++ lit "\nstderr: " ++ lit "boom" ∧
      lit "partial" <:+: msg ∧ lit "boom" <:+: msg := by
  obtain ⟨hout, -, -, hmsg⟩ :=
    nonzero_exit_carries_output (demoHost failProc) demoExecutor demoInit demoWritten
      demoWritten demoSetUp demoSetUp demoSetUp demoFed demoFed demoFed ()
      (lit "exit 3") demoTest (lit "/w/script-") 7 (lit "exit status 3") (lit "partial")
      (lit "boom")
      (by decide) (by decide) (by decide) (by decide) (by decide) (by decide) (by decide)
      (by decide) (by decide) (by decide)
  exact ⟨hout, hmsg⟩

/-- C8 (as stated) fails: on a host whose child exits with status 3 after
printing to both streams (whenever waited on, the wait returns that) but does
not read its input, the script is accepted, the setup succeeds, the process is
started, the write of the input fails, and `ExecuteTest` returns the write
error, whose text holds neither what the child printed to standard output nor
what it printed to standard error; likewise when the close of the pipe
fails. -/
theorem nonzero_exit_lost_when_input_write_fails :
    (brokenPipeHost failProc).Select =
      (fun s _ => (s, Outcome.done (some (lit "exit status 3")) (lit "partial")
        (lit "boom"))) ∧
    (brokenPipeHost failProc).ValidateScript (lit "exit 3") = none ∧
    setupEvents (ExecuteTest (brokenPipeHost failProc) demoExecutor demoInit ()
      (lit "exit 3") demoTest).trace = demoSetupEvents ∧
    Event.start demoScriptCmd (Started.ok 7) ∈
      (ExecuteTest (brokenPipeHost failProc) demoExecutor demoInit () (lit "exit 3")
        demoTest).trace ∧
    (ExecuteTest (brokenPipeHost failProc) demoExecutor demoInit () (lit "exit 3")
      demoTest).err = some (lit "failed to write input: " ++ lit "broken pipe") ∧
    ¬ lit "partial" <:+: lit "failed to write input: " ++ lit "broken pipe" ∧
    ¬ lit "boom" <:+: lit "failed to write input: " ++ lit "broken pipe" ∧
    (closeFailHost failProc).Select =
      (fun s _ => (s, Outcome.done (some (lit "exit status 3")) (lit "partial")
        (lit "boom"))) ∧
    Event.start demoScriptCmd (Started.ok 7) ∈
      (ExecuteTest (closeFailHost failProc) demoExecutor demoInit () (lit "exit 3")
        demoTest).trace ∧
    (ExecuteTest (closeFailHost failProc) demoExecutor demoInit () (lit "exit 3")
      demoTest).err = some (lit "failed to close stdin: " ++ lit "close failed") ∧
    ¬ lit "partial" <:+: lit "failed to close stdin: " ++ lit "close failed" ∧
    ¬ lit "boom" <:+: lit "failed to close stdin: " ++ lit "close failed" :=
  ⟨rfl, by decide, by decide, by decide, by decide, by decide, by decide, rfl, by decide,
    by decide, by decide, by decide⟩

/-! ## The JSON location (C9) -/

/-- C10 (as amended): every script file `ExecuteTest` writes is the script
text written to `script.sh` of the provisioned directory with mode `0750`,
which grants execute permission to the owner and to the group and not to
others. -/
theorem script_file_mode (h : Host σ κ) (e : Executor) (s : σ) (ctx : κ)
    (script : Str) (test : Test) (name data : Str) (perm : Nat) (err : Option Str)
    (hmem : Event.writeFile name data perm err ∈ (ExecuteTest h e s ctx script test).trace) :
    data = script ∧
    (∃ dir, Event.prepare e.workDir (Res.ok dir) ∈ (ExecuteTest h e s ctx script test).trace ∧
      name = h.Join dir (lit "script.sh")) ∧
    perm = 0o750 ∧
    ownerExec perm = true ∧ groupExec perm = true ∧ otherExec perm = false := by
  rcases ExecuteTest_shape h e s ctx script test with
    ⟨reason, -, hrun⟩ | ⟨hacc, ⟨s1, m, -, hrun⟩ | ⟨s1, dir, sb, body, -, -, htr, hbody⟩⟩
  · rw [hrun] at hmem
    simp at hmem
  · rw [hrun] at hmem
    simp at hmem
  · obtain ⟨w, rest, rfl, hrest⟩ := bodyShape_write hbody
    have hnot : Event.writeFile name data perm err ∉ rest := by
      intro hin
      have := hrest _ hin
      cases this
    rw [htr] at hmem
    simp [hnot] at hmem
    obtain ⟨rfl, rfl, rfl, rfl⟩ := hmem
    refine ⟨rfl, ⟨dir, by rw [htr]; simp, rfl⟩, rfl, ?_, ?_, ?_⟩ <;> decide

/-- C10 (as amended) on the example host: the script file is written with a
mode whose group-execute bit is set. -/
theorem script_file_mode_witness :
    Event.writeFile (lit "/w/script-/script.sh") (lit "cat") 0o750 none ∈
      (ExecuteTest (demoHost catProc) demoExecutor demoInit () (lit "cat") demoTest).trace ∧
    groupExec 0o750 = true :=
  ⟨by decide,
    (script_file_mode (demoHost catProc) demoExecutor demoInit () (lit "cat") demoTest
      (lit "/w/script-/script.sh") (lit "cat") 0o750 none (by decide)).2.2.2.2.1⟩

/-- C10 (as stated) fails: the script file of the example run is written with
mode `0750`, whose group-execute bit is set, so execute permission is not
restricted to the owner. -/
theorem script_file_mode_grants_group_exec :
    Event.writeFile (lit "/w/script-/script.sh") (lit "cat") 0o750 none ∈
      (ExecuteTest (demoHost catProc) demoExecutor demoInit () (lit "cat") demoTest).trace ∧
    ¬ (ownerExec 0o750 = true ∧ groupExec 0o750 = false ∧ otherExec 0o750 = false) := by
  decide

end LLMScript
